import Mathlib

/-!
Verification of the certificate data-assembly engine
(`src/services/certificate_engine.py`) via a shallow embedding.

Python values flowing through HubSpot property bags are modelled by the
inductive type `Value`; property bags (Python dicts) by association lists
with first-match lookup; the HTTP calls of the allocator by explicit
state passing over a `Store` mapping object ids to property bags; and the
ambient clock (`datetime.now`) by an explicit `PDateTime` parameter.
Fallible Python code (attribute errors on `None.lower()`, uncaught
`OverflowError` from `int(float(...))`) is modelled with `Except`.
-/

namespace CertEngine

/-- Model of the Python values stored in HubSpot property bags and in the
assembled certificate field map: `None`, strings, integers, lists, dicts. -/
inductive Value where
  | none : Value
  | str (s : String) : Value
  | int (n : Int) : Value
  | list (xs : List Value) : Value
  | dict (es : List (String × Value)) : Value

/-- A Python dict with string keys, as an association list (first match wins;
the dicts built by the engine have pairwise distinct keys). -/
abbrev Bag := List (String × Value)

/-- First-match association-list lookup, modelling Python dict access
(for property bags, grouped-device tables and the CRM store alike). -/
def pyLookup {α : Type} : List (String × α) → String → Option α
  | [], _ => Option.none
  | (k, v) :: rest, key => if k = key then Option.some v else pyLookup rest key

/-- Python `d.get(key, default)`: the stored value when the key is present
(even when that value is `None`), otherwise the default. -/
def pyGet (d : Bag) (key : String) (dflt : Value) : Value :=
  match pyLookup d key with
  | Option.some v => v
  | Option.none => dflt

/-- Python `key in d`. -/
def pyContains (d : Bag) (key : String) : Bool :=
  (pyLookup d key).isSome

/-- Python dict assignment `d[k] = v`: overwrite in place when the key is
present, otherwise append at the end (insertion order is preserved). -/
def pyDictSet {α : Type} : List (String × α) → String → α → List (String × α)
  | [], k, v => [(k, v)]
  | p :: rest, k, v => if p.1 = k then (k, v) :: rest else p :: pyDictSet rest k v

/-- Sequence of dict assignments, in order. -/
def setAll (d : Bag) (es : Bag) : Bag :=
  es.foldl (fun acc p => pyDictSet acc p.1 p.2) d

/-- Python truthiness of a modelled value. -/
def pyTruthy : Value → Bool
  | Value.none => false
  | Value.str s => !s.isEmpty
  | Value.int n => n != 0
  | Value.list xs => !xs.isEmpty
  | Value.dict es => !es.isEmpty

/-- The single-quote character, used by Python repr of strings. -/
def quoteChar : Char := Char.ofNat 39

/-- Python `repr`. String escaping inside repr is simplified to bare single
quotes; no claim evaluates `repr`/`str` on a list or dict. -/
def pyRepr : Value → String
  | Value.none => "None"
  | Value.str s => String.singleton quoteChar ++ s ++ String.singleton quoteChar
  | Value.int n => toString n
  | Value.list xs =>
      "[" ++ String.intercalate ", " (xs.attach.map (fun x => pyRepr x.1)) ++ "]"
  | Value.dict es =>
      "\x7b" ++ String.intercalate ", "
        (es.attach.map (fun p => String.singleton quoteChar ++ p.1.1
          ++ String.singleton quoteChar ++ ": " ++ pyRepr p.1.2)) ++ "\x7d"
termination_by v => sizeOf v
decreasing_by
  · have h1 := List.sizeOf_lt_of_mem x.2
    simp only [Value.list.sizeOf_spec]
    omega
  · have h1 := List.sizeOf_lt_of_mem p.2
    have h2 : sizeOf (p.1).2 < sizeOf p.1 := by
      cases h : p.1 with
      | mk a b => simp [h]
    simp only [Value.dict.sizeOf_spec]
    omega

/-- Python `str(v)`: identity on strings, `repr` otherwise
(`str(None) = "None"`, `str(5) = "5"`, `str([..]) = "[..]"`). -/
def pyStr : Value → String
  | Value.str s => s
  | v => pyRepr v

/-- Python whitespace (`str.strip` / regex `\s`), ASCII subset. -/
def isPySpace (c : Char) : Bool :=
  c = ' ' || c = '\t' || c = '\n' || c = '\x0d' || c = '\x0b' || c = '\x0c'

/-- ASCII decimal digit (regex `\d` on the data the engine sees). -/
def isPyDigit (c : Char) : Bool := '0' ≤ c && c ≤ '9'

/-- Python `str.strip()`. -/
def stripStr (s : String) : String :=
  String.mk (((s.data.dropWhile isPySpace).reverse.dropWhile isPySpace).reverse)

/-- Python `str.lower()` (ASCII; the engine data is ASCII). -/
def toLowerStr (s : String) : String := String.mk (s.data.map Char.toLower)

/-- Python `str.upper()` (ASCII). -/
def toUpperStr (s : String) : String := String.mk (s.data.map Char.toUpper)

/-- Whether `pat` is a prefix of `s` (character lists). -/
def listIsPrefix : List Char → List Char → Bool
  | [], _ => true
  | _ :: _, [] => false
  | a :: as, b :: bs => a = b && listIsPrefix as bs

/-- Whether `needle` occurs as a contiguous substring of `hay`
(Python `needle in hay`; the empty needle always occurs). -/
def listIsSubstr : List Char → List Char → Bool
  | n, [] => listIsPrefix n []
  | n, h :: t => listIsPrefix n (h :: t) || listIsSubstr n t

/-- Python substring test `needle in hay`. -/
def strContains (hay needle : String) : Bool := listIsSubstr needle.data hay.data

/-- Strip `pat` from the front of a list, returning the remainder. -/
def stripPre : List Char → List Char → Option (List Char)
  | [], rest => Option.some rest
  | _ :: _, [] => Option.none
  | a :: as, b :: bs => if a = b then stripPre as bs else Option.none

/-- Python `str.replace(old, new)` on lists (all non-overlapping occurrences,
left to right), by fuel; an empty pattern leaves the input unchanged
(the engine only replaces nonempty patterns). -/
def listReplaceFuel (pat rep : List Char) : Nat → List Char → List Char
  | _, [] => []
  | 0, s => s
  | Nat.succ f, h :: t =>
    match (if pat.isEmpty then Option.none else stripPre pat (h :: t)) with
    | Option.some rest => rep ++ listReplaceFuel pat rep f rest
    | Option.none => h :: listReplaceFuel pat rep f t

/-- Python `s.replace(old, new)`. -/
def strReplaceAll (s old new : String) : String :=
  String.mk (listReplaceFuel old.data new.data s.data.length s.data)

/-- Left-pad with a character to a minimum length. -/
def padLeft (s : String) (c : Char) (k : Nat) : String :=
  String.mk (List.replicate (k - s.data.length) c ++ s.data)

/-- Two-digit zero padding (strftime `%d`, `%I`, `%M`). -/
def pad2 (n : Nat) : String := padLeft (toString n) '0' 2

/-- A wall-clock datetime, modelling the Python `datetime` values the engine
formats; `datetime.now()` is modelled by passing a `PDateTime` explicitly. -/
structure PDateTime where
  year : Nat
  month : Nat
  day : Nat
  hour : Nat
  minute : Nat
deriving DecidableEq

/-- Numeric value of a list of decimal digit characters. -/
def digitsToNat (ds : List Char) : Nat :=
  ds.foldl (fun a c => a * 10 + (c.toNat - 48)) 0

/-- Read exactly two digits. -/
def takeDigits2 : List Char → Option (Nat × List Char)
  | a :: b :: rest =>
      if isPyDigit a && isPyDigit b then Option.some (digitsToNat [a, b], rest)
      else Option.none
  | _ => Option.none

/-- Read exactly four digits. -/
def takeDigits4 : List Char → Option (Nat × List Char)
  | a :: b :: c :: d :: rest =>
      if isPyDigit a && isPyDigit b && isPyDigit c && isPyDigit d then
        Option.some (digitsToNat [a, b, c, d], rest)
      else Option.none
  | _ => Option.none

/-- Consume one expected character. -/
def expectChar (c : Char) : List Char → Option (List Char)
  | x :: rest => if x = c then Option.some rest else Option.none
  | [] => Option.none

/-- Gregorian leap year. -/
def isLeapYear (y : Nat) : Bool := y % 4 = 0 && (y % 100 != 0 || y % 400 = 0)

/-- Days in a month. -/
def daysInMonth (y m : Nat) : Nat :=
  if m = 2 then (if isLeapYear y then 29 else 28)
  else if m = 4 ∨ m = 6 ∨ m = 9 ∨ m = 11 then 30
  else 31

/-- Optional fractional seconds of an ISO time: a dot followed by exactly
3 or 6 digits (as accepted by `datetime.fromisoformat`). -/
def parseFrac (cs : List Char) : Option (List Char) :=
  match cs with
  | '.' :: r =>
    let ds := r.takeWhile isPyDigit
    let rest := r.dropWhile isPyDigit
    if ds.length = 3 || ds.length = 6 then Option.some rest else Option.none
  | r => Option.some r

/-- Optional UTC offset suffix of an ISO datetime: `[+-]HH:MM[:SS[.ffffff]]`,
with the offset bounded below one day; must end the string. -/
def parseOffset (cs : List Char) : Option Unit :=
  match cs with
  | [] => Option.some ()
  | sgn :: r =>
    if sgn = '+' || sgn = '-' then do
      let (oh, r1) ← takeDigits2 r
      let r2 ← expectChar ':' r1
      let (om, r3) ← takeDigits2 r2
      let r4 ← (match r3 with
        | ':' :: rr => do
            let (os, r5) ← takeDigits2 rr
            if os ≤ 59 then parseFrac r5 else Option.none
        | rr => Option.some rr)
      if oh ≤ 23 && om ≤ 59 && r4.isEmpty then Option.some () else Option.none
    else Option.none

/-- Time-of-day part `HH:MM[:SS[.frac]][offset]` of an ISO datetime. -/
def parseTime (y mo d : Nat) (cs : List Char) : Option PDateTime := do
  let (h, r1) ← takeDigits2 cs
  let r2 ← expectChar ':' r1
  let (mi, r3) ← takeDigits2 r2
  let r4 ← (match r3 with
    | ':' :: rr => do
        let (sec, r5) ← takeDigits2 rr
        if sec ≤ 59 then parseFrac r5 else Option.none
    | rr => Option.some rr)
  let _ ← parseOffset r4
  if h ≤ 23 && mi ≤ 59 then Option.some ⟨y, mo, d, h, mi⟩ else Option.none

/-- Model of `datetime.fromisoformat`: `YYYY-MM-DD[<sep>HH:MM[:SS[.frac]][offset]]`
with calendar validation; yields the wall-clock fields the engine formats. -/
def parseIso (s : String) : Option PDateTime := do
  let (y, r1) ← takeDigits4 s.data
  let r2 ← expectChar '-' r1
  let (mo, r3) ← takeDigits2 r2
  let r4 ← expectChar '-' r3
  let (d, r5) ← takeDigits2 r4
  if 1 ≤ y && 1 ≤ mo && mo ≤ 12 && 1 ≤ d && d ≤ daysInMonth y mo then
    match r5 with
    | [] => Option.some ⟨y, mo, d, 0, 0⟩
    | _ :: rest => parseTime y mo d rest
  else Option.none

/-- strftime `%B`. -/
def monthName : Nat → String
  | 1 => "January" | 2 => "February" | 3 => "March" | 4 => "April"
  | 5 => "May" | 6 => "June" | 7 => "July" | 8 => "August"
  | 9 => "September" | 10 => "October" | 11 => "November" | 12 => "December"
  | _ => ""

/-- strftime `%I`: 12-hour clock. -/
def hour12 (h : Nat) : Nat := if h % 12 = 0 then 12 else h % 12

/-- strftime `%p`. -/
def ampmUpper (h : Nat) : String := if h < 12 then "AM" else "PM"

/-- Python `str.lstrip(0)`: drop every leading zero character. -/
def lstripZeros (s : String) : String :=
  String.mk (s.data.dropWhile (fun c => c = '0'))

/-- strftime `"%B %d, %Y %I:%M %p"` as used by the DATETIME_FORMAT transform. -/
def fmtMonthDayYearTime (dt : PDateTime) : String :=
  monthName dt.month ++ " " ++ pad2 dt.day ++ ", " ++ padLeft (toString dt.year) '0' 4
    ++ " " ++ pad2 (hour12 dt.hour) ++ ":" ++ pad2 dt.minute ++ " " ++ ampmUpper dt.hour

/-- Ordinal day suffix as computed by the TIMESTAMP_FORMAT transform:
`th` for day mod 100 in 10..20, else by last digit. -/
def ordinalSuffix100 (day : Nat) : String :=
  if 10 ≤ day % 100 ∧ day % 100 ≤ 20 then "th"
  else match day % 10 with
    | 1 => "st" | 2 => "nd" | 3 => "rd" | _ => "th"

/-- The TIMESTAMP_FORMAT output: month, ordinal day, year, and the 12-hour
time with leading zeros stripped and am/pm lower-cased. -/
def timestampPhrase (now : PDateTime) : String :=
  let sfx := ordinalSuffix100 now.day
  let time_str := toLowerStr (lstripZeros
    (pad2 (hour12 now.hour) ++ ":" ++ pad2 now.minute ++ ampmUpper now.hour))
  monthName now.month ++ " " ++ toString now.day ++ sfx ++ ", " ++ toString now.year
    ++ " at " ++ time_str

/-- Match attempt for the regex group of EXTRACT_ITEM_NUMBER at the head
of the list: an opening bracket,
one or more digits, a closing bracket; yields the digits. -/
def bracketNumAt : List Char → Option (List Char)
  | '[' :: t =>
    let ds := t.takeWhile isPyDigit
    let rest := t.dropWhile isPyDigit
    if !ds.isEmpty then
      match rest with
      | ']' :: _ => Option.some ds
      | _ => Option.none
    else Option.none
  | _ => Option.none

/-- Leftmost `[(\d+)]` occurrence (re.search), yielding the captured digits. -/
def findBracketNum : List Char → Option (List Char)
  | [] => Option.none
  | c :: t =>
    match bracketNumAt (c :: t) with
    | Option.some ds => Option.some ds
    | Option.none => findBracketNum t

/-- The EXTRACT_ITEM_NUMBER transform on a string: captured digits of the
first `[N]` group, or empty. -/
def extractItemNumber (s : String) : String :=
  match findBracketNum s.data with
  | Option.some ds => String.mk ds
  | Option.none => ""

/-- Does `\s*\[\d+\].*$` match at this position (no-newline data)? -/
def extractNameMatchAt (s : List Char) : Bool :=
  (bracketNumAt (s.dropWhile isPySpace)).isSome

/-- Keep the prefix before the leftmost `\s*\[\d+\].*$` match (re.sub with
empty replacement). -/
def extractNameCut : List Char → List Char
  | [] => []
  | c :: t => if extractNameMatchAt (c :: t) then [] else c :: extractNameCut t

/-- The EXTRACT_NAME transform: drop the bracketed suffix and trim. -/
def extractName (s : String) : String :=
  stripStr (String.mk (extractNameCut s.data))

/-- Fixed communication-path code table of the COMM_PATH_LABEL transform. -/
def commPathCodeTable : List (String × String) :=
  [("01", "BLINK mesh radio"), ("02", "cellular via Alarmnet"),
   ("03", "cellular via DSC Integration Bridge"), ("04", "analog telephone line"),
   ("05", "cellular connection"), ("06", "cellular via alarm.com"),
   ("07", "internet via Alarmnet"), ("08", "internet via DSC"),
   ("09", "BLINK mesh radio"), ("13", "BLINK mesh radio")]

/-- First-match lookup in a string-to-string table. -/
def lookupStr : List (String × String) → String → Option String
  | [], _ => Option.none
  | (k, v) :: rest, key => if k = key then Option.some v else lookupStr rest key

/-- The COMM_PATH_LABEL transform: code table, then substring heuristics,
then the raw value stringified. -/
def commPathLabel (value : Value) : Value :=
  if !pyTruthy value then Value.str ""
  else
    let value_str := toLowerStr (stripStr (pyStr value))
    match lookupStr commPathCodeTable value_str with
    | Option.some lbl => Value.str lbl
    | Option.none =>
      if strContains value_str "blink" then Value.str "BLINK mesh radio"
      else if strContains value_str "gsm" || strContains value_str "cellular" then
        Value.str "cellular connection"
      else if strContains value_str "phone" || strContains value_str "telephone" then
        Value.str "analog telephone line"
      else Value.str (pyStr value)

/-- The substrings that make a communication path count as wireless. -/
def wirelessWords : List String := ["blink", "gsm", "cellular"]

/-- Whether a normalized path string counts as wireless. -/
def isWirelessPath (p : String) : Bool := wirelessWords.any (fun w => strContains p w)

/-- The COMM_PATH_PHRASE transform of the source: needs a list of at least
two elements; each element is stringified (blank when falsy), stripped and
lower-cased; both blank yields empty, both wireless yields
"Redundant Wireless", one wireless yields "GSM Only", else empty. -/
def commPathPhrase (value : Value) : Value :=
  match value with
  | Value.list (a :: b :: _) =>
    let path1 := toLowerStr (stripStr (pyStr (if pyTruthy a then a else Value.str "")))
    let path2 := toLowerStr (stripStr (pyStr (if pyTruthy b then b else Value.str "")))
    if path1.isEmpty && path2.isEmpty then Value.str ""
    else if isWirelessPath path1 && isWirelessPath path2 then Value.str "Redundant Wireless"
    else if isWirelessPath path1 || isWirelessPath path2 then Value.str "GSM Only"
    else Value.str ""
  | _ => Value.str ""

/-- Transform dispatch by kind, reached only for non-None values
(the None early return lives in `transform_value`). -/
def transformDispatch (value : Value) (tr : String) (now : PDateTime) : Value :=
  if tr = "NONE" then Value.str (pyStr value)
  else if tr = "CONCAT_SPACE" then
    match value with
    | Value.list xs => Value.str (String.intercalate " " ((xs.filter pyTruthy).map pyStr))
    | v => Value.str (pyStr v)
  else if tr = "UPPER" then Value.str (toUpperStr (pyStr value))
  else if tr = "DATETIME_FORMAT" then
    match value with
    | Value.str s =>
      (match parseIso (strReplaceAll s "Z" "+00:00") with
       | Option.some dt => Value.str (strReplaceAll (fmtMonthDayYearTime dt) " 0" " ")
       | Option.none => Value.str s)
    | v => Value.str (pyStr v)
  else if tr = "TIMESTAMP_FORMAT" then Value.str (timestampPhrase now)
  else if tr = "DEVICE_COUNT" then
    match value with
    | Value.list xs => Value.int xs.length
    | _ => Value.int 0
  else if tr = "EXTRACT_ITEM_NUMBER" then Value.str (extractItemNumber (pyStr value))
  else if tr = "EXTRACT_NAME" then Value.str (extractName (pyStr value))
  else if tr = "DEVICE_ARRAY" then
    match value with
    | Value.list xs => Value.list xs
    | _ => Value.list []
  else if tr = "COMM_PATH_LABEL" then commPathLabel value
  else if tr = "COMM_PATH_PHRASE" then commPathPhrase value
  else Value.str (pyStr value)

/-- Source function `transform_value`: a None value short-circuits to the
empty string before any kind dispatch; `datetime.now()` of the
TIMESTAMP_FORMAT branch is the explicit `now` parameter. -/
def transform_value (value : Value) (tr : String) (now : PDateTime) : Value :=
  match value with
  | Value.none => Value.str ""
  | v => transformDispatch v tr now

/-- The 18 fixed device categories, in the initialization order of
`group_devices`. -/
def categoriesList : List String :=
  ["Perimeter", "Motion", "Glassbreak", "ShockVibration", "PanicAlert", "Tamper",
   "NonRelaySmoke", "Sprinkler", "Heat", "CO", "Flood", "Sump",
   "120vSmoke", "Gas", "Humidity", "IntegratedEnvironmental", "Temperature", "Waterflow"]

/-- Equipment-type rules of `group_devices`, in dict iteration order. -/
def typeRules : List (String × List String) :=
  [("Perimeter", ["1"]), ("Motion", ["2"]), ("Glassbreak", ["19"]),
   ("ShockVibration", ["54"]), ("PanicAlert", ["9", "34", "104"]),
   ("Tamper", ["124"]), ("NonRelaySmoke", ["5", "53"]), ("Heat", ["8"]),
   ("CO", ["6"]), ("Flood", ["16"])]

/-- Subtype override mappings of `group_devices`. -/
def subtypeMap : List (String × String) :=
  [("318", "Sump"), ("438", "Sump"), ("439", "Sump"),
   ("197", "Sprinkler"), ("198", "Sprinkler"), ("322", "Sprinkler"),
   ("119", "Flood"), ("120", "Flood"),
   ("187", "Heat"), ("188", "Heat"),
   ("108", "Glassbreak"), ("109", "Glassbreak"),
   ("110", "Perimeter"), ("111", "Perimeter"), ("194", "Perimeter"),
   ("195", "Perimeter"), ("222", "Perimeter"), ("223", "Perimeter"),
   ("221", "Perimeter"), ("225", "Perimeter"), ("224", "Perimeter"),
   ("167", "CO"), ("159", "CO")]

/-- Read the device description as a string: the default when the key is
absent; an error (Python AttributeError / TypeError on a non-string value,
e.g. a stored None) otherwise. -/
def getDescStr (device : Bag) (dflt : String) : Except String String :=
  match pyLookup device "alarm_com_description" with
  | Option.none => Except.ok dflt
  | Option.some (Value.str s) => Except.ok s
  | Option.some _ => Except.error "AttributeError: description is not a string"

/-- The stripped subtype code of a device. -/
def subtypeCodeOf (device : Bag) : String :=
  stripStr (pyStr (pyGet device "equipment_subtype" (Value.str "")))

/-- The stripped equipment-type code of a device. -/
def equipTypeOf (device : Bag) : String :=
  stripStr (pyStr (pyGet device "alarm_com_equipment_type" (Value.str "")))

/-- The stringified sensor-group code of a device. -/
def sensorGroupOf (device : Bag) : String :=
  pyStr (pyGet device "alarm_com_sensor_group" (Value.str ""))

/-- The equipment-type loop of `group_devices`: first rule whose type list
contains the device type wins, except that a NonRelaySmoke match is skipped
when the description contains relay or 120v or the sensor group is 48, and
a Heat match is skipped when the sensor group is 48. -/
def typeLoop (device : Bag) (etype : String) :
    List (String × List String) → Except String (Option String)
  | [] => Except.ok Option.none
  | (cat, types) :: rest =>
    if types.contains etype then
      if cat = "NonRelaySmoke" then
        match getDescStr device "" with
        | Except.error e => Except.error e
        | Except.ok desc =>
          if strContains (toLowerStr desc) "relay" || strContains (toLowerStr desc) "120v"
              || sensorGroupOf device = "48" then
            typeLoop device etype rest
          else Except.ok (Option.some cat)
      else if cat = "Heat" then
        if sensorGroupOf device = "48" then typeLoop device etype rest
        else Except.ok (Option.some cat)
      else Except.ok (Option.some cat)
    else typeLoop device etype rest

/-- Equipment-type classification with the sensor-group fallback. -/
def classifyByType (device : Bag) : Except String (Option String) :=
  match typeLoop device (equipTypeOf device) typeRules with
  | Except.error e => Except.error e
  | Except.ok (Option.some cat) => Except.ok (Option.some cat)
  | Except.ok Option.none =>
    if sensorGroupOf device = "48" then Except.ok (Option.some "Sprinkler")
    else Except.ok Option.none

/-- Per-device classification of `group_devices`: subtype override first
(when its category is one of the initialized categories), then the
equipment-type rules, then the sensor-group 48 Sprinkler fallback;
`Option.none` means the device lands in no category. -/
def classifyDevice (device : Bag) : Except String (Option String) :=
  match lookupStr subtypeMap (subtypeCodeOf device) with
  | Option.some cat =>
    if categoriesList.contains cat then Except.ok (Option.some cat)
    else classifyByType device
  | Option.none => classifyByType device

/-- The category table with all 18 categories mapped to empty lists. -/
def initGroups : List (String × List Bag) :=
  categoriesList.map (fun c => (c, []))

/-- Python `grouped[category].append(device)`: append at the end of the list held
at the (present) key. -/
def dictAppend (g : List (String × List Bag)) (k : String) (d : Bag) :
    List (String × List Bag) :=
  g.map (fun p => if p.1 = k then (p.1, p.2 ++ [d]) else p)

/-- The grouping loop of `group_devices` over the device list, in order. -/
def groupFold : List Bag → List (String × List Bag) →
    Except String (List (String × List Bag))
  | [], acc => Except.ok acc
  | d :: ds, acc =>
    match classifyDevice d with
    | Except.error e => Except.error e
    | Except.ok Option.none => groupFold ds acc
    | Except.ok (Option.some c) => groupFold ds (dictAppend acc c d)

/-- Strip a leading run of digits followed by a run of whitespace
(regex sub of an anchored pattern). -/
def stripLeadDigitsWs (s : List Char) : List Char :=
  let ds := s.takeWhile isPyDigit
  if ds.isEmpty then s
  else
    let rest := s.dropWhile isPyDigit
    let ws := rest.takeWhile isPySpace
    if ws.isEmpty then s else rest.dropWhile isPySpace

/-- The sort key of `group_devices`: description with the leading digit run
stripped, lower-cased; fails like Python on a non-string description. -/
def sortKeyOf (d : Bag) : Except String String :=
  match getDescStr d "" with
  | Except.error e => Except.error e
  | Except.ok desc => Except.ok (toLowerStr (String.mk (stripLeadDigitsWs desc.data)))

/-- Pair every device with its sort key, in order (Python computes keys
left to right, so the first bad description raises). -/
def keyedDevs : List Bag → Except String (List (String × Bag))
  | [] => Except.ok []
  | d :: ds =>
    match sortKeyOf d with
    | Except.error e => Except.error e
    | Except.ok k =>
      match keyedDevs ds with
      | Except.error e => Except.error e
      | Except.ok r => Except.ok ((k, d) :: r)

/-- Stable insertion into a key-sorted list: existing entries with a
smaller-or-equal key stay in front (Python sorted is stable). -/
def insSorted (x : String × Bag) : List (String × Bag) → List (String × Bag)
  | [] => [x]
  | y :: ys => if y.1 < x.1 then y :: insSorted x ys else x :: y :: ys

/-- Stable sort by key. -/
def sortKeyed : List (String × Bag) → List (String × Bag)
  | [] => []
  | x :: xs => insSorted x (sortKeyed xs)

/-- Sort one category list the way `group_devices` does. -/
def sortDevs (devs : List Bag) : Except String (List Bag) :=
  match keyedDevs devs with
  | Except.error e => Except.error e
  | Except.ok ps => Except.ok ((sortKeyed ps).map Prod.snd)

/-- Sort every category list. -/
def sortPhase : List (String × List Bag) → Except String (List (String × List Bag))
  | [] => Except.ok []
  | (c, l) :: rest =>
    match sortDevs l with
    | Except.error e => Except.error e
    | Except.ok l2 =>
      match sortPhase rest with
      | Except.error e => Except.error e
      | Except.ok rest2 => Except.ok ((c, l2) :: rest2)

/-- Source function `group_devices`: initialize the 18 categories, classify
each device in order, then sort each category list by normalized
description. -/
def group_devices (devices : List Bag) : Except String (List (String × List Bag)) :=
  match groupFold devices initGroups with
  | Except.error e => Except.error e
  | Except.ok g => sortPhase g

/-- Result of Python `int(float(s))` under the try/except of the allocator:
a truncated integer, an invalid parse (ValueError, caught, giving 0), or an
infinite float (OverflowError from `int`, not caught). -/
inductive CounterParse where
  | truncated (n : Int)
  | invalid
  | overflowed
deriving DecidableEq

/-- Truncate the exact decimal `(-1)^neg * m * 10^scale` toward zero the way
`int(float(...))` does; magnitudes beyond the double range become infinite
(the boundary is approximated; counters are small integers). -/
def floatTrunc (neg : Bool) (m : Nat) (scale : Int) : CounterParse :=
  if m = 0 then CounterParse.truncated 0
  else
    let sig : Int := (toString m).length
    if sig + scale > 320 then CounterParse.overflowed
    else if sig + scale ≤ 0 then CounterParse.truncated 0
    else
      let mag : Nat := if 0 ≤ scale then m * 10 ^ scale.toNat else m / 10 ^ (-scale).toNat
      CounterParse.truncated (if neg then -(mag : Int) else (mag : Int))

/-- Model of `int(float(s))`: optional surrounding whitespace and sign, then
`inf`/`infinity` (overflow), `nan` (ValueError from `int`, caught), or a
decimal mantissa with optional fraction and exponent, truncated toward zero.
The decimal is treated exactly (not rounded to binary); digit-group
underscores are not modelled. -/
def parsePyFloat (s : String) : CounterParse :=
  let cs := ((s.data.dropWhile isPySpace).reverse.dropWhile isPySpace).reverse
  let (neg, cs1) :=
    match cs with
    | '+' :: r => (false, r)
    | '-' :: r => (true, r)
    | r => (false, r)
  let low := cs1.map Char.toLower
  if low = "inf".data || low = "infinity".data then CounterParse.overflowed
  else if low = "nan".data then CounterParse.invalid
  else
    let ip := cs1.takeWhile isPyDigit
    let r1 := cs1.dropWhile isPyDigit
    let (fp, r2) :=
      match r1 with
      | '.' :: rr => (rr.takeWhile isPyDigit, rr.dropWhile isPyDigit)
      | rr => (([] : List Char), rr)
    if ip.isEmpty && fp.isEmpty then CounterParse.invalid
    else
      let m := digitsToNat (ip ++ fp)
      match r2 with
      | [] => floatTrunc neg m (-(fp.length : Int))
      | c :: rr =>
        if c = 'e' || c = 'E' then
          let (eneg, rr1) :=
            match rr with
            | '+' :: q => (false, q)
            | '-' :: q => (true, q)
            | q => (false, q)
          let eds := rr1.takeWhile isPyDigit
          let rr2 := rr1.dropWhile isPyDigit
          if eds.isEmpty || !rr2.isEmpty then CounterParse.invalid
          else
            let e : Int := if eneg then -(digitsToNat eds : Int) else (digitsToNat eds : Int)
            floatTrunc neg m (e - (fp.length : Int))
        else CounterParse.invalid

/-- Python `int(float(v))` on a modelled value: strings are parsed, integers pass
through, anything else raises TypeError (caught, giving 0). -/
def pyIntFloat : Value → CounterParse
  | Value.str s => parsePyFloat s
  | Value.int n => CounterParse.truncated n
  | _ => CounterParse.invalid

/-- The counter read of the allocator: the `certificate_counter` property,
defaulting to the string 0. -/
def counterOf (bag : Bag) : CounterParse :=
  pyIntFloat (pyGet bag "certificate_counter" (Value.str "0"))

/-- The counter integer after try/except: invalid parses become 0; an
infinite float propagates OverflowError (no integer). -/
def counterIntOf (bag : Bag) : Option Int :=
  match counterOf bag with
  | CounterParse.truncated n => Option.some n
  | CounterParse.invalid => Option.some 0
  | CounterParse.overflowed => Option.none

/-- The CRM objects reachable by the allocator: system id to property bag.
Models the GET and PATCH calls by explicit state. -/
abbrev Store := List (String × Bag)

/-- GET of the properties of a system; absence models a non-200 response. -/
def storeGet (st : Store) (key : String) : Option Bag := pyLookup st key

/-- PATCH of the properties of a system. -/
def storeSet (st : Store) (key : String) (b : Bag) : Store := pyDictSet st key b

/-- Python format `%03d`: zero padding to a total width of three,
sign included. -/
def padIntWidth3 (n : Int) : String :=
  if n < 0 then "-" ++ padLeft (toString n.natAbs) '0' 2
  else padLeft (toString n.natAbs) '0' 3

/-- Source function `generate_certificate_number`: read the system counter,
truncate per `int(float(...))` with 0 on bad input, increment, write the
incremented integer back to the same property, and return
`siteId-counter` with the counter padded to at least three digits. -/
def generate_certificate_number (st : Store) (site_id system_id : String) :
    Except String (String × Store) :=
  match storeGet st system_id with
  | Option.none => Except.error "Failed to get system"
  | Option.some bag =>
    match counterIntOf bag with
    | Option.none => Except.error "OverflowError"
    | Option.some counter_int =>
      let new_counter := counter_int + 1
      let cert_number := site_id ++ "-" ++ padIntWidth3 new_counter
      let bag' := pyDictSet bag "certificate_counter" (Value.int new_counter)
      Except.ok (cert_number, storeSet st system_id bag')

/-- The bundle produced by `fetch_hubspot_data`: one property bag per
entity plus the device property bags (the fetch itself is thin HTTP
plumbing; the orchestrator is modelled as receiving this bundle). -/
structure HubData where
  agreement : Bag
  system : Bag
  site : Bag
  customer : Bag
  devices : List Bag

/-- Source function `validate_data`: accumulate every failed completeness
check, in source order, and report success iff none failed. -/
def validate_data (data : HubData) : Bool × List String :=
  let errors :=
    (if pyTruthy (pyGet data.site "address" Value.none) then [] else ["Site address is missing"]) ++
    (if pyTruthy (pyGet data.site "city" Value.none) then [] else ["Site city is missing"]) ++
    (if pyTruthy (pyGet data.site "state" Value.none) then [] else ["Site state is missing"]) ++
    (if pyTruthy (pyGet data.site "zip" Value.none) then [] else ["Site postal code is missing"]) ++
    (if pyTruthy (pyGet data.customer "firstname" Value.none)
        || pyTruthy (pyGet data.customer "lastname" Value.none) then []
     else ["Customer name is missing"]) ++
    (if data.devices.isEmpty then ["No devices found on system"] else [])
  (errors.isEmpty, errors)

/-- Python `a or b` on values. -/
def pyOrV (a b : Value) : Value := if pyTruthy a then a else b

/-- Python `opt or ""` on an optional string argument. -/
def optOrEmpty : Option String → String
  | Option.some s => s
  | Option.none => ""

/-- Ordinal day suffix as computed inline by the assembler
(th for 11..13, else by last digit). -/
def ordinalSuffixAssemble (day : Nat) : String :=
  if 11 ≤ day ∧ day ≤ 13 then "th"
  else match day % 10 with
    | 1 => "st" | 2 => "nd" | 3 => "rd" | _ => "th"

/-- The PST generation timestamp string built inline by the assembler;
`datetime.now(pst)` is the explicit `now` parameter. -/
def assembleTimestamp (now : PDateTime) : String :=
  monthName now.month ++ " " ++ toString now.day ++ ordinalSuffixAssemble now.day
    ++ ", " ++ toString now.year ++ " at "
    ++ lstripZeros (toLowerStr (pad2 (hour12 now.hour) ++ ":" ++ pad2 now.minute
        ++ ampmUpper now.hour))

/-- The status-flag field suffixes probed by the assembler, in source order. -/
def statusNums : List String :=
  ["15746", "15747", "14380", "14385", "14386", "14387", "14388", "14399", "15082",
   "14389", "14390", "14391", "14401", "14393", "14394", "14395", "14396", "14397",
   "14398", "14726", "15711", "15787", "15272", "14920", "14631", "15252", "14372",
   "15756", "15753", "15754", "14366", "14367"]

/-- The property-name stems probed for each status suffix, in source order. -/
def statusPrefixes : List String :=
  ["agreement_plan_communication_", "agreement_plan_gateway_",
   "agreement_plan_intrusion_", "agreement_plan_fire_",
   "agreement_plan_environmental_", "agreement_plan_integratedsystems_",
   "agreement_plan_response_", "agreement_plan_verify_",
   "agreement_plan_trespass_"]

/-- The status entry for one suffix: the first probed property name present
in the agreement bag yields `AGREEMENT_Status_{suffix}`; no match, no entry. -/
def statusEntryFor (agreement : Bag) (num : String) : Option (String × Value) :=
  (statusPrefixes.find? (fun p => pyContains agreement (p ++ num))).map
    (fun p => ("AGREEMENT_Status_" ++ num, pyGet agreement (p ++ num) (Value.str "")))

/-- All status entries, in suffix order. -/
def statusEntries (agreement : Bag) : List (String × Value) :=
  statusNums.filterMap (statusEntryFor agreement)

/-- The literal field dict built by the assembler before the status and
device loops (all keys distinct). -/
def certBaseFields (hd : HubData) (cert_number : String)
    (broker_email requestor_name : Option String) (now : PDateTime) :
    List (String × Value) :=
  [("provider_name", Value.str "Provident Security Corp"),
   ("provider_address", Value.str "9123 Bentley Street, Unit 118"),
   ("provider_city", Value.str "Vancouver"),
   ("provider_state", Value.str "B.C."),
   ("provider_zip", Value.str "V6E 2E9"),
   ("provider_phone", Value.str "(604) 254-9734"),
   ("CERTIFICATE_Number", Value.str cert_number),
   ("CERTIFICATE_TimeStamp", Value.str (assembleTimestamp now)),
   ("HSID", pyGet hd.agreement "hs_object_id" (Value.str "")),
   ("HSID_Site", pyGet hd.site "hs_object_id" (Value.str "")),
   ("HSID_System", pyGet hd.system "hs_object_id" (Value.str "")),
   ("SITE_Name", pyOrV (pyGet hd.site "mas_site_name" Value.none)
      (pyGet hd.site "name" (Value.str ""))),
   ("SITE_Address1", pyGet hd.site "address" (Value.str "")),
   ("SITE_Address2", pyGet hd.site "address2" (Value.str "")),
   ("SITE_City", pyGet hd.site "city" (Value.str "")),
   ("SITE_Province", pyGet hd.site "state" (Value.str "")),
   ("SITE_PostalCode", transform_value (pyGet hd.site "zip" Value.none) "UPPER" now),
   ("SITE_Type", pyGet hd.site "site_type" (Value.str "")),
   ("AGREEMENT_Customer_Name", transform_value
      (Value.list [pyGet hd.customer "firstname" Value.none,
                   pyGet hd.customer "lastname" Value.none]) "CONCAT_SPACE" now),
   ("AGREEMENT_Customer_Address1", pyGet hd.customer "address" (Value.str "")),
   ("AGREEMENT_Customer_City", pyGet hd.customer "city" (Value.str "")),
   ("AGREEMENT_Customer_Province", pyGet hd.customer "state" (Value.str "")),
   ("AGREEMENT_Customer_PostalCode", transform_value
      (pyGet hd.customer "zip" Value.none) "UPPER" now),
   ("AGREEMENT_EffectiveDate", transform_value
      (pyGet hd.agreement "agreement_plan_effectivedate" Value.none) "DATETIME_FORMAT" now),
   ("AGREEMENT_Plan_ItemNumber", transform_value
      (pyGet hd.agreement "agreement_plan_name" Value.none) "EXTRACT_ITEM_NUMBER" now),
   ("AGREEMENT_Plan_Supervision", transform_value
      (pyGet hd.agreement "agreement_plan_supervision" Value.none) "EXTRACT_ITEM_NUMBER" now),
   ("AGREEMENT_Response_Guarantee",
      pyGet hd.agreement "agreement_plan_response_guarantee" (Value.str "")),
   ("Path_Primary", transform_value
      (pyGet hd.system "communication_path_1" Value.none) "COMM_PATH_LABEL" now),
   ("Path_Secondary", transform_value
      (pyGet hd.system "communication_path_2" Value.none) "COMM_PATH_LABEL" now),
   ("Path_Phrase", transform_value
      (Value.list [pyGet hd.system "communication_path_1" Value.none,
                   pyGet hd.system "communication_path_2" Value.none]) "COMM_PATH_PHRASE" now),
   ("AGREEMENT_Partitions_Included",
      pyGet hd.agreement "agreement_partitions_included" (Value.str "")),
   ("AGREEMENT_Partitions_Additional",
      pyGet hd.agreement "agreement_partitions_additional" (Value.str "")),
   ("AGREEMENT_Partitions_Total",
      pyGet hd.agreement "agreement_partitions_total" (Value.str "")),
   ("Integrations_Gate_Fire", pyGet hd.system "integrations_gate_fire" (Value.str "")),
   ("CERTIFICATE_Recipient_Name", Value.str (optOrEmpty requestor_name)),
   ("CERTIFICATE_Recipient_Company", Value.str (optOrEmpty broker_email))]

/-- One `{name, zone}` entry of a device-category list: description with
leading digits stripped (default when the key is absent; a present
non-string raises like Python re.sub), zone from the first truthy of
adc_deviceid, zone__, empty string. -/
def zoneEntry (device : Bag) : Except String Value :=
  match pyGet device "alarm_com_description" (Value.str "Unknown Device") with
  | Value.str desc =>
    let desc_clean := String.mk (stripLeadDigitsWs desc.data)
    let zone := pyOrV (pyGet device "adc_deviceid" Value.none)
      (pyOrV (pyGet device "zone__" Value.none) (Value.str ""))
    Except.ok (Value.dict [("name", Value.str desc_clean), ("zone", zone)])
  | _ => Except.error "TypeError: description is not a string"

/-- The `{name, zone}` entries of one category, in order. -/
def zoneList : List Bag → Except String (List Value)
  | [] => Except.ok []
  | d :: ds =>
    match zoneEntry d with
    | Except.error e => Except.error e
    | Except.ok v =>
      match zoneList ds with
      | Except.error e => Except.error e
      | Except.ok r => Except.ok (v :: r)

/-- The `Zones_{category}` and `Count_{category}` assignments of the
assembler, in grouped-key order. -/
def deviceEntries : List (String × List Bag) → Except String (List (String × Value))
  | [] => Except.ok []
  | (cat, devs) :: rest =>
    match zoneList devs with
    | Except.error e => Except.error e
    | Except.ok zl =>
      match deviceEntries rest with
      | Except.error e => Except.error e
      | Except.ok r =>
        Except.ok (("Zones_" ++ cat, Value.list zl)
          :: ("Count_" ++ cat, Value.int zl.length) :: r)

/-- Source function `assemble_certificate_fields`: the literal field dict,
then the status-flag assignments, then the per-category zone/count
assignments (dict assignment semantics throughout). -/
def assemble_certificate_fields (hd : HubData) (grouped : List (String × List Bag))
    (cert_number : String) (broker_email requestor_name : Option String)
    (now : PDateTime) : Except String (List (String × Value)) :=
  let base := certBaseFields hd cert_number broker_email requestor_name now
  let withStatus := setAll base (statusEntries hd.agreement)
  match deviceEntries grouped with
  | Except.error e => Except.error e
  | Except.ok devEs => Except.ok (setAll withStatus devEs)

/-- Source function `generate_certificate_data`, with the fetch modelled as
the given bundle and the CRM modelled by the store: validate (raising
ValueError with the joined violations on failure, before any counter
access), then allocate the certificate number (incrementing the counter),
then group devices, then assemble. The returned store reflects every
counter write that happened. -/
def generate_certificate_data (hd : HubData) (st : Store)
    (system_id site_id : String) (broker_email requestor_name : Option String)
    (now : PDateTime) : Except String (List (String × Value)) × Store :=
  let v := validate_data hd
  if !v.1 then
    (Except.error ("Validation failed: " ++ String.intercalate ", " v.2), st)
  else
    match generate_certificate_number st site_id system_id with
    | Except.error e => (Except.error e, st)
    | Except.ok (cert_number, st') =>
      match group_devices hd.devices with
      | Except.error e => (Except.error e, st')
      | Except.ok grouped =>
        match assemble_certificate_fields hd grouped cert_number broker_email
            requestor_name now with
        | Except.error e => (Except.error e, st')
        | Except.ok fm => (Except.ok fm, st')

/-! Lemmas about the dict model. -/

theorem pyLookup_dictSet {α : Type} (d : List (String × α)) (k : String) (v : α)
    (key : String) :
    pyLookup (pyDictSet d k v) key = if key = k then Option.some v else pyLookup d key := by
  induction d with
  | nil =>
    simp only [pyDictSet, pyLookup]
    split_ifs with h1 h2 h2 <;> first
      | rfl
      | exact absurd h1.symm h2
      | exact absurd h2.symm h1
  | cons p rest ih =>
    by_cases h1 : p.1 = k
    · simp only [pyDictSet, if_pos h1, pyLookup]
      by_cases h2 : k = key
      · rw [if_pos h2, if_pos h2.symm]
      · rw [if_neg h2, if_neg (fun h : key = k => h2 h.symm),
          if_neg (fun h : p.1 = key => h2 (h1.symm.trans h))]
    · simp only [pyDictSet, if_neg h1, pyLookup, ih]
      by_cases h2 : p.1 = key
      · rw [if_pos h2, if_neg (fun h : key = k => h1 (h2.trans h)), if_pos h2]
      · rw [if_neg h2]
        by_cases h3 : key = k
        · rw [if_pos h3, if_pos h3]
        · rw [if_neg h3, if_neg h3, if_neg h2]

theorem pyLookup_isSome_iff_mem {α : Type} (d : List (String × α)) (k : String) :
    (pyLookup d k).isSome = true ↔ k ∈ d.map Prod.fst := by
  induction d with
  | nil => simp [pyLookup]
  | cons p rest ih =>
    by_cases h : p.1 = k
    · simp [pyLookup, h]
    · simp only [pyLookup, if_neg h, List.map_cons, List.mem_cons, ih]
      constructor
      · exact fun h2 => Or.inr h2
      · rintro (h2 | h2)
        · exact absurd h2.symm h
        · exact h2

theorem pyLookup_setAll_isSome (es : Bag) (d : Bag) (k : String) :
    (pyLookup (setAll d es) k).isSome = true ↔
      k ∈ es.map Prod.fst ∨ (pyLookup d k).isSome = true := by
  induction es generalizing d with
  | nil => simp [setAll]
  | cons p rest ih =>
    have step : setAll d (p :: rest) = setAll (pyDictSet d p.1 p.2) rest := rfl
    rw [step, ih]
    by_cases h : k = p.1
    · simp [pyLookup_dictSet, h]
    · simp only [pyLookup_dictSet, if_neg h, List.map_cons, List.mem_cons]
      constructor
      · rintro (h2 | h2)
        · exact Or.inl (Or.inr h2)
        · exact Or.inr h2
      · rintro ((h2 | h2) | h2)
        · exact absurd h2 h
        · exact Or.inl h2
        · exact Or.inr h2

theorem pyLookup_setAll_notin (es : Bag) (d : Bag) (k : String)
    (h : ¬ k ∈ es.map Prod.fst) :
    pyLookup (setAll d es) k = pyLookup d k := by
  induction es generalizing d with
  | nil => rfl
  | cons p rest ih =>
    have step : setAll d (p :: rest) = setAll (pyDictSet d p.1 p.2) rest := rfl
    have h1 : ¬ k ∈ rest.map Prod.fst := fun h2 => h (by simp [h2])
    have h2 : ¬ k = p.1 := fun h2 => h (by simp [h2])
    rw [step, ih _ h1, pyLookup_dictSet, if_neg h2]

/-! Lemmas about string concatenation of field-name keys. -/

theorem strData_append (a b : String) : (a ++ b).data = a.data ++ b.data := by
  cases a
  cases b
  rfl

theorem strAppend_left_cancel (a b c : String) (h : a ++ b = a ++ c) : b = c := by
  have h1 : (a ++ b).data = (a ++ c).data := by rw [h]
  rw [strData_append, strData_append] at h1
  have h2 := List.append_cancel_left h1
  cases b
  cases c
  exact congrArg String.mk h2

theorem listIsPrefix_append_self (l r : List Char) : listIsPrefix l (l ++ r) = true := by
  induction l with
  | nil => rfl
  | cons c t ih => simp [listIsPrefix, ih]

theorem ne_of_not_prefix (pre s k : String)
    (h : listIsPrefix pre.data k.data = false) : ¬ (pre ++ s = k) := by
  intro h1
  have h2 : listIsPrefix pre.data k.data = true := by
    rw [← h1, strData_append]
    exact listIsPrefix_append_self _ _
  rw [h] at h2
  exact Bool.noConfusion h2

/-! Lemmas about the grouping table. -/

theorem pyGroupLookup_dictAppend (g : List (String × List Bag)) (k : String)
    (d : Bag) (c : String) :
    pyLookup (dictAppend g k d) c =
      if c = k then (pyLookup g c).map (fun l => l ++ [d]) else pyLookup g c := by
  induction g with
  | nil => by_cases h : c = k <;> simp [dictAppend, pyLookup, h]
  | cons p rest ih =>
    have hmap : dictAppend (p :: rest) k d =
        (if p.1 = k then (p.1, p.2 ++ [d]) else p) :: dictAppend rest k d := by
      simp [dictAppend]
    rw [hmap]
    by_cases h1 : p.1 = k
    · rw [if_pos h1]
      by_cases h2 : p.1 = c
      · have hck : c = k := h2.symm.trans h1
        simp [pyLookup, if_pos h2, if_pos hck]
      · simp only [pyLookup, if_neg h2, ih]
    · rw [if_neg h1]
      by_cases h2 : p.1 = c
      · have hck : ¬ c = k := fun h => h1 (h2.trans h)
        simp [pyLookup, if_pos h2, if_neg hck]
      · simp only [pyLookup, if_neg h2, ih]

theorem dictAppend_map_fst (g : List (String × List Bag)) (k : String) (d : Bag) :
    (dictAppend g k d).map Prod.fst = g.map Prod.fst := by
  induction g with
  | nil => rfl
  | cons p rest ih =>
    by_cases h : p.1 = k <;> simp [dictAppend, h] <;>
      simpa [dictAppend] using ih

theorem groupFold_map_fst (ds : List Bag) (acc g : List (String × List Bag))
    (h : groupFold ds acc = Except.ok g) : g.map Prod.fst = acc.map Prod.fst := by
  induction ds generalizing acc with
  | nil =>
    simp [groupFold] at h
    rw [h]
  | cons d rest ih =>
    unfold groupFold at h
    cases hc : classifyDevice d with
    | error e => rw [hc] at h; exact Except.noConfusion h
    | ok r =>
      rw [hc] at h
      cases r with
      | none => exact ih acc h
      | some c =>
        have h1 := ih (dictAppend acc c d) h
        rw [h1, dictAppend_map_fst]

/-! Sorting preserves membership. -/

theorem mem_insSorted (x : String × Bag) (l : List (String × Bag)) (y : String × Bag) :
    y ∈ insSorted x l ↔ y = x ∨ y ∈ l := by
  induction l with
  | nil => simp [insSorted]
  | cons a t ih =>
    by_cases h : a.1 < x.1
    · simp only [insSorted, if_pos h, List.mem_cons, ih]
      tauto
    · simp only [insSorted, if_neg h, List.mem_cons]

theorem mem_sortKeyed (l : List (String × Bag)) (y : String × Bag) :
    y ∈ sortKeyed l ↔ y ∈ l := by
  induction l with
  | nil => simp [sortKeyed]
  | cons a t ih => simp [sortKeyed, mem_insSorted, ih]

theorem keyedDevs_map_snd (l : List Bag) (ps : List (String × Bag))
    (h : keyedDevs l = Except.ok ps) : ps.map Prod.snd = l := by
  induction l generalizing ps with
  | nil =>
    simp only [keyedDevs] at h
    cases h
    rfl
  | cons d ds ih =>
    simp only [keyedDevs] at h
    cases hk : sortKeyOf d with
    | error e => rw [hk] at h; exact Except.noConfusion h
    | ok k =>
      rw [hk] at h
      cases hr : keyedDevs ds with
      | error e => rw [hr] at h; exact Except.noConfusion h
      | ok r =>
        rw [hr] at h
        cases h
        simp [ih r hr]

theorem sortDevs_mem (l l2 : List Bag) (h : sortDevs l = Except.ok l2) (x : Bag) :
    x ∈ l2 ↔ x ∈ l := by
  unfold sortDevs at h
  cases hk : keyedDevs l with
  | error e => rw [hk] at h; exact Except.noConfusion h
  | ok ps =>
    rw [hk] at h
    cases h
    constructor
    · intro hx
      rcases List.mem_map.mp hx with ⟨p, hp, hpx⟩
      have hp2 := (mem_sortKeyed ps p).mp hp
      rw [← keyedDevs_map_snd l ps hk]
      exact hpx ▸ List.mem_map_of_mem Prod.snd hp2
    · intro hx
      rw [← keyedDevs_map_snd l ps hk] at hx
      rcases List.mem_map.mp hx with ⟨p, hp, hpx⟩
      exact hpx ▸ List.mem_map_of_mem Prod.snd ((mem_sortKeyed ps p).mpr hp)

theorem sortPhase_map_fst (g g2 : List (String × List Bag))
    (h : sortPhase g = Except.ok g2) : g2.map Prod.fst = g.map Prod.fst := by
  induction g generalizing g2 with
  | nil =>
    simp only [sortPhase] at h
    cases h
    rfl
  | cons p rest ih =>
    obtain ⟨c, l⟩ := p
    simp only [sortPhase] at h
    cases hs : sortDevs l with
    | error e => rw [hs] at h; exact Except.noConfusion h
    | ok l2 =>
      rw [hs] at h
      cases hr : sortPhase rest with
      | error e => rw [hr] at h; exact Except.noConfusion h
      | ok rest2 =>
        rw [hr] at h
        cases h
        simp [ih rest2 hr]

theorem sortPhase_lookup (g g2 : List (String × List Bag))
    (h : sortPhase g = Except.ok g2) (c : String) (l2 : List Bag)
    (hl : pyLookup g2 c = Option.some l2) :
    ∃ l, pyLookup g c = Option.some l ∧ ∀ x, (x ∈ l2 ↔ x ∈ l) := by
  induction g generalizing g2 with
  | nil =>
    simp only [sortPhase] at h
    cases h
    exact absurd hl (by simp [pyLookup])
  | cons p rest ih =>
    obtain ⟨ck, lk⟩ := p
    simp only [sortPhase] at h
    cases hs : sortDevs lk with
    | error e => rw [hs] at h; exact Except.noConfusion h
    | ok lk2 =>
      rw [hs] at h
      cases hr : sortPhase rest with
      | error e => rw [hr] at h; exact Except.noConfusion h
      | ok rest2 =>
        rw [hr] at h
        cases h
        by_cases hc : ck = c
        · simp only [pyLookup, if_pos hc] at hl ⊢
          cases hl
          exact ⟨lk, rfl, sortDevs_mem lk l2 hs⟩
        · simp only [pyLookup, if_neg hc] at hl ⊢
          exact ih rest2 hr hl

theorem sortPhase_lookup_fwd (g g2 : List (String × List Bag))
    (h : sortPhase g = Except.ok g2) (c : String) (l : List Bag)
    (hl : pyLookup g c = Option.some l) :
    ∃ l2, pyLookup g2 c = Option.some l2 ∧ ∀ x, (x ∈ l2 ↔ x ∈ l) := by
  induction g generalizing g2 with
  | nil => exact absurd hl (by simp [pyLookup])
  | cons p rest ih =>
    obtain ⟨ck, lk⟩ := p
    simp only [sortPhase] at h
    cases hs : sortDevs lk with
    | error e => rw [hs] at h; exact Except.noConfusion h
    | ok lk2 =>
      rw [hs] at h
      cases hr : sortPhase rest with
      | error e => rw [hr] at h; exact Except.noConfusion h
      | ok rest2 =>
        rw [hr] at h
        cases h
        by_cases hc : ck = c
        · simp only [pyLookup, if_pos hc] at hl ⊢
          have hlk : lk = l := by injection hl
          subst hlk
          exact ⟨lk2, rfl, sortDevs_mem lk lk2 hs⟩
        · simp only [pyLookup, if_neg hc] at hl ⊢
          exact ih rest2 hr hl

/-! Classification lands in the initialized categories. -/

theorem typeLoop_cat_mem (d : Bag) (e : String) (rules : List (String × List String))
    (c : String) (h : typeLoop d e rules = Except.ok (Option.some c)) :
    c ∈ rules.map Prod.fst := by
  induction rules with
  | nil => exact absurd h (by simp [typeLoop])
  | cons p rest ih =>
    obtain ⟨cat, types⟩ := p
    unfold typeLoop at h
    by_cases h1 : types.contains e
    · rw [if_pos h1] at h
      by_cases h2 : cat = "NonRelaySmoke"
      · rw [if_pos h2] at h
        split at h
        · exact Except.noConfusion h
        · split at h
          · exact List.mem_cons_of_mem _ (ih h)
          · have hc : cat = c := by injection h with h4; injection h4
            exact hc ▸ List.mem_cons_self _ _
      · rw [if_neg h2] at h
        by_cases h4 : cat = "Heat"
        · rw [if_pos h4] at h
          by_cases h5 : sensorGroupOf d = "48"
          · rw [if_pos h5] at h
            exact List.mem_cons_of_mem _ (ih h)
          · rw [if_neg h5] at h
            have hc : cat = c := by injection h with h6; injection h6
            exact hc ▸ List.mem_cons_self _ _
        · rw [if_neg h4] at h
          have hc : cat = c := by injection h with h6; injection h6
          exact hc ▸ List.mem_cons_self _ _
    · rw [if_neg h1] at h
      exact List.mem_cons_of_mem _ (ih h)

theorem classifyDevice_cat_mem (d : Bag) (c : String)
    (h : classifyDevice d = Except.ok (Option.some c)) : c ∈ categoriesList := by
  have byType : classifyByType d = Except.ok (Option.some c) → c ∈ categoriesList := by
    intro h1
    unfold classifyByType at h1
    cases ht : typeLoop d (equipTypeOf d) typeRules with
    | error e => rw [ht] at h1; exact Except.noConfusion h1
    | ok r =>
      rw [ht] at h1
      cases r with
      | some cat =>
        have hc : cat = c := by injection h1 with h2; injection h2
        have hm := typeLoop_cat_mem d (equipTypeOf d) typeRules c (hc ▸ ht)
        have hsub : ∀ x, x ∈ typeRules.map Prod.fst → x ∈ categoriesList := by decide
        exact hsub c hm
      | none =>
        by_cases hs : sensorGroupOf d = "48"
        · rw [if_pos hs] at h1
          have hc : "Sprinkler" = c := by injection h1 with h2; injection h2
          rw [← hc]
          decide
        · rw [if_neg hs] at h1
          injection h1 with h2
          exact Option.noConfusion h2
  unfold classifyDevice at h
  cases hsub : lookupStr subtypeMap (subtypeCodeOf d) with
  | none => rw [hsub] at h; exact byType h
  | some cat =>
    rw [hsub] at h
    dsimp only at h
    by_cases h1 : categoriesList.contains cat
    · rw [if_pos h1] at h
      have hc : cat = c := by injection h with h2; injection h2
      have hmem : cat ∈ categoriesList := by
        rw [List.contains_iff_exists_mem_beq] at h1
        rcases h1 with ⟨a, ha, hba⟩
        exact (eq_of_beq hba) ▸ ha
      exact hc ▸ hmem
    · rw [if_neg h1] at h
      exact byType h

/-! Lookup in the initial category table. -/

theorem lookup_initGroups_empty (c : String) (l : List Bag)
    (h : pyLookup initGroups c = Option.some l) : l = [] := by
  have hgen : ∀ (L : List String), pyLookup (L.map (fun c => ((c : String), ([] : List Bag)))) c
      = Option.some l → l = [] := by
    intro L
    induction L with
    | nil => intro h2; exact absurd h2 (by simp [pyLookup])
    | cons a t ih =>
      intro h2
      simp only [List.map_cons, pyLookup] at h2
      by_cases ha : a = c
      · rw [if_pos ha] at h2
        injection h2 with h3
        exact h3.symm
      · rw [if_neg ha] at h2
        exact ih h2
  exact hgen categoriesList h

theorem lookup_initGroups_isSome (c : String) (h : c ∈ categoriesList) :
    (pyLookup initGroups c).isSome = true := by
  rw [pyLookup_isSome_iff_mem]
  unfold initGroups
  simpa using h

/-! The grouping loop: what its lists contain. -/

theorem groupFold_sound (ds : List Bag) (acc g : List (String × List Bag))
    (h : groupFold ds acc = Except.ok g) (cat : String) (l : List Bag) (x : Bag)
    (hl : pyLookup g cat = Option.some l) (hx : x ∈ l) :
    (∃ l0, pyLookup acc cat = Option.some l0 ∧ x ∈ l0) ∨
      classifyDevice x = Except.ok (Option.some cat) := by
  induction ds generalizing acc with
  | nil =>
    simp only [groupFold] at h
    cases h
    exact Or.inl ⟨l, hl, hx⟩
  | cons d rest ih =>
    simp only [groupFold] at h
    cases hc : classifyDevice d with
    | error e => rw [hc] at h; exact Except.noConfusion h
    | ok r =>
      rw [hc] at h
      cases r with
      | none => exact ih acc h
      | some c =>
        rcases ih (dictAppend acc c d) h with ⟨l0, hl0, hx0⟩ | hcl
        · rw [pyGroupLookup_dictAppend] at hl0
          by_cases hck : cat = c
          · rw [if_pos hck] at hl0
            cases ha : pyLookup acc cat with
            | none => rw [ha] at hl0; exact Option.noConfusion hl0
            | some la =>
              rw [ha] at hl0
              have hla : la ++ [d] = l0 := by injection hl0
              rw [← hla] at hx0
              rcases List.mem_append.mp hx0 with hxa | hxd
              · exact Or.inl ⟨la, rfl, hxa⟩
              · have hxd2 : x = d := by simpa using hxd
                exact Or.inr (hxd2 ▸ hck ▸ hc)
          · rw [if_neg hck] at hl0
            exact Or.inl ⟨l0, hl0, hx0⟩
        · exact Or.inr hcl

theorem groupFold_mono (ds : List Bag) (acc g : List (String × List Bag))
    (h : groupFold ds acc = Except.ok g) (cat : String) (x : Bag)
    (hin : ∃ l0, pyLookup acc cat = Option.some l0 ∧ x ∈ l0) :
    ∃ l, pyLookup g cat = Option.some l ∧ x ∈ l := by
  induction ds generalizing acc with
  | nil =>
    simp only [groupFold] at h
    cases h
    exact hin
  | cons d rest ih =>
    simp only [groupFold] at h
    cases hc : classifyDevice d with
    | error e => rw [hc] at h; exact Except.noConfusion h
    | ok r =>
      rw [hc] at h
      cases r with
      | none => exact ih acc h hin
      | some c =>
        rcases hin with ⟨l0, hl0, hx0⟩
        apply ih (dictAppend acc c d) h
        by_cases hck : cat = c
        · exact ⟨l0 ++ [d],
            by rw [pyGroupLookup_dictAppend, if_pos hck, hl0]; rfl,
            List.mem_append.mpr (Or.inl hx0)⟩
        · exact ⟨l0, by rw [pyGroupLookup_dictAppend, if_neg hck]; exact hl0, hx0⟩

theorem groupFold_complete (ds : List Bag) (acc g : List (String × List Bag))
    (h : groupFold ds acc = Except.ok g) (x : Bag) (c : String)
    (hx : x ∈ ds) (hc : classifyDevice x = Except.ok (Option.some c))
    (hacc : (pyLookup acc c).isSome = true) :
    ∃ l, pyLookup g c = Option.some l ∧ x ∈ l := by
  induction ds generalizing acc with
  | nil => exact absurd hx (List.not_mem_nil x)
  | cons d rest ih =>
    simp only [groupFold] at h
    rcases List.mem_cons.mp hx with hxd | hxrest
    · subst hxd
      rw [hc] at h
      apply groupFold_mono rest _ g h c x
      cases ha : pyLookup acc c with
      | none => rw [ha] at hacc; exact Bool.noConfusion hacc
      | some l0 =>
        exact ⟨l0 ++ [x],
          by rw [pyGroupLookup_dictAppend, if_pos rfl, ha]; rfl,
          List.mem_append.mpr (Or.inr (by simp))⟩
    · cases hcd : classifyDevice d with
      | error e => rw [hcd] at h; exact Except.noConfusion h
      | ok r =>
        rw [hcd] at h
        cases r with
        | none => exact ih acc h hxrest hacc
        | some c2 =>
          apply ih (dictAppend acc c2 d) h hxrest
          rw [pyLookup_isSome_iff_mem, dictAppend_map_fst]
          exact (pyLookup_isSome_iff_mem acc c).mp hacc

/-! `group_devices`: what its output lists contain. -/

theorem group_devices_classify_of_mem (devs : List Bag)
    (g : List (String × List Bag)) (h : group_devices devs = Except.ok g)
    (cat : String) (l : List Bag) (x : Bag)
    (hl : pyLookup g cat = Option.some l) (hx : x ∈ l) :
    classifyDevice x = Except.ok (Option.some cat) := by
  unfold group_devices at h
  cases hg : groupFold devs initGroups with
  | error e => rw [hg] at h; exact Except.noConfusion h
  | ok g1 =>
    rw [hg] at h
    rcases sortPhase_lookup g1 g h cat l hl with ⟨l1, hl1, hiff⟩
    rcases groupFold_sound devs initGroups g1 hg cat l1 x hl1 ((hiff x).mp hx) with
      ⟨l0, hl0, hx0⟩ | hcl
    · rw [lookup_initGroups_empty cat l0 hl0] at hx0
      exact absurd hx0 (List.not_mem_nil x)
    · exact hcl

theorem group_devices_mem_of_classify (devs : List Bag)
    (g : List (String × List Bag)) (h : group_devices devs = Except.ok g)
    (x : Bag) (c : String) (hx : x ∈ devs)
    (hc : classifyDevice x = Except.ok (Option.some c)) :
    ∃ l, pyLookup g c = Option.some l ∧ x ∈ l := by
  unfold group_devices at h
  cases hg : groupFold devs initGroups with
  | error e => rw [hg] at h; exact Except.noConfusion h
  | ok g1 =>
    rw [hg] at h
    have hacc := lookup_initGroups_isSome c (classifyDevice_cat_mem x c hc)
    rcases groupFold_complete devs initGroups g1 hg x c hx hc hacc with ⟨l1, hl1, hx1⟩
    rcases sortPhase_lookup_fwd g1 g h c l1 hl1 with ⟨l2, hl2, hiff⟩
    exact ⟨l2, hl2, (hiff x).mpr hx1⟩

theorem group_devices_map_fst (devs : List Bag) (g : List (String × List Bag))
    (h : group_devices devs = Except.ok g) : g.map Prod.fst = categoriesList := by
  unfold group_devices at h
  cases hg : groupFold devs initGroups with
  | error e => rw [hg] at h; exact Except.noConfusion h
  | ok g1 =>
    rw [hg] at h
    rw [sortPhase_map_fst g1 g h, groupFold_map_fst devs initGroups g1 hg]
    unfold initGroups
    rw [List.map_map]
    have hid : (Prod.fst ∘ fun c : String => ((c : String), ([] : List Bag))) = id := rfl
    rw [hid, List.map_id]

/-! Claim theorems. -/

/-- A fixed concrete clock instant used by concrete evaluations. -/
def dt0 : PDateTime := ⟨2026, 1, 15, 9, 5⟩

/-- C6 counterexample: the claim says empty values short-circuit to the
empty string like None does, but DEVICE_COUNT of an empty list is the
integer 0, not the empty string. -/
theorem transform_empty_not_shortcircuit_counterexample :
    transform_value (Value.list []) "DEVICE_COUNT" dt0 = Value.int 0 ∧
      Value.int 0 ≠ Value.str "" := by
  refine ⟨rfl, ?_⟩
  intro h
  exact Value.noConfusion h

/-- C6 amended: only a None value short-circuits before kind dispatch; for
every transform kind, transform of None is the empty string (empty values
reach the dispatch instead: DEVICE_COUNT of an empty list is the integer 0
and DEVICE_ARRAY of an empty list is the empty list). -/
theorem transform_none_shortcircuits :
    (∀ (tr : String) (now : PDateTime), transform_value Value.none tr now = Value.str "")
      ∧ transform_value (Value.list []) "DEVICE_COUNT" dt0 = Value.int 0
      ∧ transform_value (Value.list []) "DEVICE_ARRAY" dt0 = Value.list [] :=
  ⟨fun _ _ => rfl, rfl, rfl⟩

/-- Wireless test as worded by the spec table: the path contains
blink, gsm or cellular. -/
def commPathWirelessSpec (p : String) : Bool :=
  strContains p "blink" || strContains p "gsm" || strContains p "cellular"

/-- The COMM_PATH_PHRASE rule as worded by the spec (and by the amended
claim): empty for short lists, empty when both normalized elements are
blank, Redundant Wireless when both are wireless, GSM Only when exactly
one is, empty otherwise. -/
def commPathPhraseSpecRule (value : Value) : String :=
  match value with
  | Value.list (a :: b :: _) =>
    let p1 := toLowerStr (stripStr (pyStr (if pyTruthy a then a else Value.str "")))
    let p2 := toLowerStr (stripStr (pyStr (if pyTruthy b then b else Value.str "")))
    if p1 = "" ∧ p2 = "" then ""
    else if commPathWirelessSpec p1 ∧ commPathWirelessSpec p2 then "Redundant Wireless"
    else if (commPathWirelessSpec p1 ∧ ¬ commPathWirelessSpec p2 = true)
        ∨ (¬ commPathWirelessSpec p1 = true ∧ commPathWirelessSpec p2) then "GSM Only"
    else ""
  | _ => ""

theorem isWirelessPath_eq_spec (p : String) :
    isWirelessPath p = commPathWirelessSpec p := by
  simp [isWirelessPath, wirelessWords, commPathWirelessSpec, List.any, Bool.or_assoc]

/-- C1 counterexample: the transform maps the path-code pair 01/02 to the
empty string, not to Redundant Wireless — raw codes are never looked up in
the label table, and 01/02 contain none of the wireless substrings. -/
theorem comm_path_phrase_codes_counterexample :
    transform_value (Value.list [Value.str "01", Value.str "02"]) "COMM_PATH_PHRASE" dt0
        = Value.str "" ∧
      Value.str "" ≠ Value.str "Redundant Wireless" := by
  refine ⟨rfl, ?_⟩
  intro h
  have h2 : "" = "Redundant Wireless" := by injection h
  exact absurd h2 (by decide)

/-- C1 amended: for a two-element input the transform follows the
substring rule on the stringified, stripped, lower-cased elements —
Redundant Wireless when both contain blink/gsm/cellular, GSM Only when
exactly one does, empty otherwise, empty when both are blank or when the
input has fewer than two elements. The code-pair examples therefore map to
the empty string (codes are not run through the label table), while
genuinely wireless descriptions produce the phrases. -/
theorem comm_path_phrase_amended :
    (∀ (value : Value) (now : PDateTime),
      transform_value value "COMM_PATH_PHRASE" now
        = Value.str (commPathPhraseSpecRule value))
    ∧ transform_value (Value.list [Value.str "01", Value.str "02"]) "COMM_PATH_PHRASE" dt0
        = Value.str ""
    ∧ transform_value (Value.list [Value.str "01", Value.str "04"]) "COMM_PATH_PHRASE" dt0
        = Value.str ""
    ∧ transform_value (Value.list [Value.str "04", Value.str "04"]) "COMM_PATH_PHRASE" dt0
        = Value.str ""
    ∧ transform_value (Value.list [Value.str "BLINK radio", Value.str "GSM backup"])
        "COMM_PATH_PHRASE" dt0 = Value.str "Redundant Wireless"
    ∧ transform_value (Value.list [Value.str "BLINK radio", Value.str "04"])
        "COMM_PATH_PHRASE" dt0 = Value.str "GSM Only" := by
  refine ⟨?_, rfl, rfl, rfl, rfl, rfl⟩
  intro value now
  cases value with
  | none => rfl
  | str s => rfl
  | int n => rfl
  | dict es => rfl
  | list xs =>
    match xs with
    | [] => rfl
    | [a] => rfl
    | a :: b :: t =>
      show commPathPhrase (Value.list (a :: b :: t)) = _
      unfold commPathPhrase commPathPhraseSpecRule
      dsimp only
      generalize toLowerStr (stripStr (pyStr (if pyTruthy a = true then a else Value.str ""))) = u
      generalize toLowerStr (stripStr (pyStr (if pyTruthy b = true then b else Value.str ""))) = v
      rw [isWirelessPath_eq_spec, isWirelessPath_eq_spec]
      by_cases hu : u = "" <;> by_cases hv : v = "" <;>
        by_cases hwu : commPathWirelessSpec u = true <;>
          by_cases hwv : commPathWirelessSpec v = true <;>
            simp +decide [hu, hv, hwu, hwv, String.isEmpty_iff]

/-- C3: with the system present in the store, the allocator returns
siteId-(counter+1) padded to three digits and persists counter+1 as an
integer on the same system, where the counter is the parsed value of the
stored string (0 when absent or non-numeric). -/
theorem generate_certificate_number_increments (st : Store) (site_id system_id : String)
    (bag : Bag) (n : Int)
    (hget : storeGet st system_id = Option.some bag)
    (hn : counterIntOf bag = Option.some n) :
    generate_certificate_number st site_id system_id =
      Except.ok (site_id ++ "-" ++ padIntWidth3 (n + 1),
        storeSet st system_id (pyDictSet bag "certificate_counter" (Value.int (n + 1)))) := by
  unfold generate_certificate_number
  rw [hget]
  dsimp only
  rw [hn]

/-- Store of the C3 witness example: one system with counter string 4. -/
def c3Store : Store := [("SYS1", [("certificate_counter", Value.str "4")])]

/-- C3 witness: counter string 4 on system SYS1, site 9999, yields
9999-005 and persists the integer 5. -/
theorem generate_certificate_number_increments_witness :
    generate_certificate_number c3Store "9999" "SYS1" =
      Except.ok ("9999-005", [("SYS1", [("certificate_counter", Value.int 5)])]) :=
  generate_certificate_number_increments c3Store "9999" "SYS1"
    [("certificate_counter", Value.str "4")] 4 rfl rfl

/-- C4: when the site postal code is missing (or blank), validation fails
and reports the postal-code error among the accumulated violations, and the
orchestrator returns the ValueError carrying the joined violation list with
the store untouched — the allocator is never reached, so no counter
changes. -/
theorem validation_failure_skips_allocator (hd : HubData) (st : Store)
    (system_id site_id : String) (be rn : Option String) (now : PDateTime)
    (hzip : pyTruthy (pyGet hd.site "zip" Value.none) = false) :
    (validate_data hd).1 = false ∧
    "Site postal code is missing" ∈ (validate_data hd).2 ∧
    generate_certificate_data hd st system_id site_id be rn now =
      (Except.error ("Validation failed: "
        ++ String.intercalate ", " (validate_data hd).2), st) := by
  have hmem : "Site postal code is missing" ∈ (validate_data hd).2 := by
    unfold validate_data
    simp [hzip]
  have hfalse : (validate_data hd).1 = false := by
    have hne := List.ne_nil_of_mem hmem
    unfold validate_data at hne ⊢
    simpa using hne
  refine ⟨hfalse, hmem, ?_⟩
  unfold generate_certificate_data
  dsimp only
  rw [hfalse]
  rfl

/-- C8: for any device list the classifier accepts, the output has exactly
the 18 fixed category keys in their fixed order, each holding a list; and
on the empty device list every category maps to the empty list. -/
theorem classifier_fixed_categories (devs : List Bag) (g : List (String × List Bag))
    (hok : group_devices devs = Except.ok g) :
    g.map Prod.fst = categoriesList ∧
    group_devices [] = Except.ok (categoriesList.map (fun c => (c, ([] : List Bag)))) :=
  ⟨group_devices_map_fst devs g hok, rfl⟩

/-- Device list of the C8 witness: one motion detector. -/
def c8Devs : List Bag :=
  [[("alarm_com_equipment_type", Value.str "2"), ("alarm_com_description", Value.str "Hall Motion")]]

/-- Grouping of the C8 witness device list. -/
def c8Out : List (String × List Bag) :=
  match group_devices c8Devs with
  | Except.ok g => g
  | Except.error _ => []

/-- C8 witness: the concrete grouping carries exactly the 18 category keys. -/
theorem classifier_fixed_categories_witness :
    c8Out.map Prod.fst = categoriesList ∧
    group_devices [] = Except.ok (categoriesList.map (fun c => (c, ([] : List Bag)))) :=
  classifier_fixed_categories c8Devs c8Out rfl

/-- Values of the subtype table are found by lookup only among the table
entries. -/
theorem lookupStr_val_mem (m : List (String × String)) (k v : String)
    (h : lookupStr m k = Option.some v) : v ∈ m.map Prod.snd := by
  induction m with
  | nil => exact absurd h (by simp [lookupStr])
  | cons p rest ih =>
    obtain ⟨a, b⟩ := p
    simp only [lookupStr] at h
    by_cases ha : a = k
    · rw [if_pos ha] at h
      injection h with h2
      simp [h2]
    · rw [if_neg ha] at h
      exact List.mem_cons_of_mem _ (ih h)

/-- C7: a device whose subtype code is in the override table is classified
to the category of the table entry — with any equipment-type value substituted in, the
result is unchanged — and in any accepted grouping that contains the
device, it lands in the list of that category. -/
theorem subtype_override_wins (d : Bag) (c : String)
    (hsub : lookupStr subtypeMap (subtypeCodeOf d) = Option.some c) :
    classifyDevice d = Except.ok (Option.some c) ∧
    (∀ t : Value, classifyDevice (pyDictSet d "alarm_com_equipment_type" t)
        = Except.ok (Option.some c)) ∧
    (∀ devs g, group_devices devs = Except.ok g → d ∈ devs →
      ∃ l, pyLookup g c = Option.some l ∧ d ∈ l) := by
  have hcat : c ∈ categoriesList := by
    have hm := lookupStr_val_mem subtypeMap (subtypeCodeOf d) c hsub
    have hsubset : ∀ x, x ∈ subtypeMap.map Prod.snd → x ∈ categoriesList := by decide
    exact hsubset c hm
  have hcontains : categoriesList.contains c = true := by
    rw [List.contains_iff_exists_mem_beq]
    exact ⟨c, hcat, by simp⟩
  have h1 : classifyDevice d = Except.ok (Option.some c) := by
    unfold classifyDevice
    rw [hsub]
    dsimp only
    rw [if_pos hcontains]
  have h2 : ∀ t : Value, classifyDevice (pyDictSet d "alarm_com_equipment_type" t)
      = Except.ok (Option.some c) := by
    intro t
    have hsub2 : subtypeCodeOf (pyDictSet d "alarm_com_equipment_type" t)
        = subtypeCodeOf d := by
      unfold subtypeCodeOf pyGet
      rw [pyLookup_dictSet, if_neg (by decide)]
    unfold classifyDevice
    rw [hsub2, hsub]
    dsimp only
    rw [if_pos hcontains]
  exact ⟨h1, h2, fun devs g hg hd2 =>
    group_devices_mem_of_classify devs g hg d c hd2 h1⟩

/-- Device of the C7 witness: sump subtype 318 with motion equipment type 2. -/
def c7Dev : Bag :=
  [("equipment_subtype", Value.str "318"), ("alarm_com_equipment_type", Value.str "2")]

/-- C7 witness: the subtype-318 device is classified Sump despite its
motion equipment type, also with the type overwritten to 1. -/
theorem subtype_override_wins_witness :
    classifyDevice c7Dev = Except.ok (Option.some "Sump") ∧
    classifyDevice (pyDictSet c7Dev "alarm_com_equipment_type" (Value.str "1"))
      = Except.ok (Option.some "Sump") :=
  ⟨(subtype_override_wins c7Dev "Sump" rfl).1,
   (subtype_override_wins c7Dev "Sump" rfl).2.1 (Value.str "1")⟩

/-- Bundle of the C4 witness: complete except for the site postal code. -/
def c4Bundle : HubData := HubData.mk
  []
  []
  [("address", Value.str "1 Main St"), ("city", Value.str "Vancouver"),
   ("state", Value.str "BC")]
  [("firstname", Value.str "Ann")]
  [[("alarm_com_equipment_type", Value.str "1")]]

/-- Store of the C4 witness. -/
def c4Store : Store := [("SYS1", [("certificate_counter", Value.str "4")])]

/-- C4 witness: the concrete zip-less bundle fails validation with the
postal-code error and the orchestrator propagates it with the store (and
hence the counter) unchanged. -/
theorem validation_failure_skips_allocator_witness :
    (validate_data c4Bundle).1 = false ∧
    "Site postal code is missing" ∈ (validate_data c4Bundle).2 ∧
    generate_certificate_data c4Bundle c4Store "SYS1" "9999"
        Option.none Option.none dt0 =
      (Except.error ("Validation failed: "
        ++ String.intercalate ", " (validate_data c4Bundle).2), c4Store) :=
  validation_failure_skips_allocator c4Bundle c4Store "SYS1" "9999"
    Option.none Option.none dt0 rfl

/-- Device of the C2 counterexample: 120v smoke of type 5 with sensor
group 48. -/
def c2Dev48 : Bag :=
  [("alarm_com_equipment_type", Value.str "5"),
   ("alarm_com_description", Value.str "120v smoke"),
   ("alarm_com_sensor_group", Value.str "48")]

/-- C2 counterexample: a type-5 device whose description contains 120v is
not always absent from every category — with sensor group 48 the
sensor-group fallback files it under Sprinkler. -/
theorem nonrelay_120v_counterexample :
    (match group_devices [c2Dev48] with
      | Except.ok g => pyLookup g "Sprinkler"
      | Except.error _ => Option.none) = Option.some [c2Dev48] := rfl

/-- C2 amended: a device of equipment type 5 or 53 whose description
contains 120v (any case), with no subtype override, is placed in no
category provided its sensor group is not 48; with sensor group 48 the
fallback assigns it to Sprinkler instead. -/
theorem nonrelay_120v_unclassified (d : Bag) (s : String)
    (hsub : lookupStr subtypeMap (subtypeCodeOf d) = Option.none)
    (htype : equipTypeOf d = "5" ∨ equipTypeOf d = "53")
    (hdesc : pyLookup d "alarm_com_description" = Option.some (Value.str s))
    (h120 : strContains (toLowerStr s) "120v" = true)
    (hsg : ¬ sensorGroupOf d = "48") :
    classifyDevice d = Except.ok Option.none ∧
    (∀ devs g cat l, group_devices devs = Except.ok g →
      pyLookup g cat = Option.some l → d ∉ l) := by
  have hdesc2 : getDescStr d "" = Except.ok s := by
    unfold getDescStr
    rw [hdesc]
  have htl : typeLoop d (equipTypeOf d) typeRules = Except.ok Option.none := by
    rcases htype with ht | ht <;>
      rw [ht] <;>
      simp +decide [typeRules, typeLoop, hdesc2, h120]
  have hnone : classifyDevice d = Except.ok Option.none := by
    unfold classifyDevice
    rw [hsub]
    unfold classifyByType
    rw [htl]
    dsimp only
    rw [if_neg hsg]
  refine ⟨hnone, fun devs g cat l hg hl hdl => ?_⟩
  have hcl := group_devices_classify_of_mem devs g hg cat l d hl hdl
  rw [hnone] at hcl
  injection hcl with h2
  exact Option.noConfusion h2

/-- Device of the C2 witness: 120V smoke of type 5, sensor group 7. -/
def c2Dev7 : Bag :=
  [("alarm_com_equipment_type", Value.str "5"),
   ("alarm_com_description", Value.str "Basement 120V Smoke"),
   ("alarm_com_sensor_group", Value.str "7")]

/-- Grouping of the C2 witness device. -/
def c2Out : List (String × List Bag) :=
  match group_devices [c2Dev7] with
  | Except.ok g => g
  | Except.error _ => []

/-- C2 witness: the concrete 120V type-5 device with sensor group 7 is
classified nowhere; in particular it is absent from the NonRelaySmoke list
of its own grouping. -/
theorem nonrelay_120v_unclassified_witness :
    classifyDevice c2Dev7 = Except.ok Option.none ∧
    c2Dev7 ∉ ([] : List Bag) :=
  ⟨(nonrelay_120v_unclassified c2Dev7 "Basement 120V Smoke" rfl (Or.inl rfl) rfl
      (by decide) (by decide)).1,
   (nonrelay_120v_unclassified c2Dev7 "Basement 120V Smoke" rfl (Or.inl rfl) rfl
      (by decide) (by decide)).2 [c2Dev7] c2Out "NonRelaySmoke" [] rfl rfl⟩

/-! Totality of classification under string descriptions (C9). -/

/-- Every present description value of the bag is a string (the key may be
absent). -/
def descIsStr (d : Bag) : Prop :=
  ∀ v, pyLookup d "alarm_com_description" = Option.some v → ∃ s, v = Value.str s

theorem getDescStr_ok (d : Bag) (hd : descIsStr d) (dflt : String) :
    ∃ s, getDescStr d dflt = Except.ok s := by
  unfold getDescStr
  cases hv : pyLookup d "alarm_com_description" with
  | none => exact ⟨dflt, rfl⟩
  | some v =>
    rcases hd v hv with ⟨s, hs⟩
    subst hs
    exact ⟨s, rfl⟩

theorem typeLoop_ok (d : Bag) (e : String) (rules : List (String × List String))
    (hd : descIsStr d) : ∃ r, typeLoop d e rules = Except.ok r := by
  induction rules with
  | nil => exact ⟨Option.none, rfl⟩
  | cons p rest ih =>
    obtain ⟨cat, types⟩ := p
    unfold typeLoop
    by_cases h1 : types.contains e
    · rw [if_pos h1]
      by_cases h2 : cat = "NonRelaySmoke"
      · rw [if_pos h2]
        rcases getDescStr_ok d hd "" with ⟨s, hs⟩
        rw [hs]
        dsimp only
        by_cases h3 : (strContains (toLowerStr s) "relay"
            || strContains (toLowerStr s) "120v" || sensorGroupOf d = "48") = true
        · rw [if_pos h3]
          exact ih
        · rw [if_neg h3]
          exact ⟨Option.some cat, rfl⟩
      · rw [if_neg h2]
        by_cases h4 : cat = "Heat"
        · rw [if_pos h4]
          by_cases h5 : sensorGroupOf d = "48"
          · rw [if_pos h5]
            exact ih
          · rw [if_neg h5]
            exact ⟨Option.some cat, rfl⟩
        · rw [if_neg h4]
          exact ⟨Option.some cat, rfl⟩
    · rw [if_neg h1]
      exact ih

theorem classifyDevice_ok (d : Bag) (hd : descIsStr d) :
    ∃ r, classifyDevice d = Except.ok r := by
  have hbt : ∃ r, classifyByType d = Except.ok r := by
    unfold classifyByType
    rcases typeLoop_ok d (equipTypeOf d) typeRules hd with ⟨r, hr⟩
    rw [hr]
    cases r with
    | some cat => exact ⟨Option.some cat, rfl⟩
    | none =>
      by_cases hs : sensorGroupOf d = "48"
      · rw [if_pos hs]
        exact ⟨Option.some "Sprinkler", rfl⟩
      · rw [if_neg hs]
        exact ⟨Option.none, rfl⟩
  unfold classifyDevice
  cases hsub : lookupStr subtypeMap (subtypeCodeOf d) with
  | none => exact hbt
  | some cat =>
    dsimp only
    by_cases h1 : categoriesList.contains cat
    · rw [if_pos h1]
      exact ⟨Option.some cat, rfl⟩
    · rw [if_neg h1]
      exact hbt

theorem groupFold_ok (ds : List Bag) (acc : List (String × List Bag))
    (hall : ∀ d ∈ ds, descIsStr d) :
    ∃ g, groupFold ds acc = Except.ok g := by
  induction ds generalizing acc with
  | nil => exact ⟨acc, rfl⟩
  | cons d rest ih =>
    unfold groupFold
    rcases classifyDevice_ok d (hall d (List.mem_cons_self d rest)) with ⟨r, hr⟩
    rw [hr]
    cases r with
    | none => exact ih acc (fun x hx => hall x (List.mem_cons_of_mem d hx))
    | some c => exact ih (dictAppend acc c d) (fun x hx => hall x (List.mem_cons_of_mem d hx))

/-- Devices in the folded table come from the accumulator or the input. -/
theorem groupFold_entry_sources (ds : List Bag) (acc g : List (String × List Bag))
    (h : groupFold ds acc = Except.ok g) (p : String × List Bag) (hp : p ∈ g)
    (x : Bag) (hx : x ∈ p.2) :
    (∃ p0 ∈ acc, x ∈ p0.2) ∨ x ∈ ds := by
  induction ds generalizing acc with
  | nil =>
    simp only [groupFold] at h
    cases h
    exact Or.inl ⟨p, hp, hx⟩
  | cons d rest ih =>
    simp only [groupFold] at h
    cases hc : classifyDevice d with
    | error e => rw [hc] at h; exact Except.noConfusion h
    | ok r =>
      rw [hc] at h
      cases r with
      | none =>
        rcases ih acc h with hin | hin
        · exact Or.inl hin
        · exact Or.inr (List.mem_cons_of_mem d hin)
      | some c =>
        rcases ih (dictAppend acc c d) h with ⟨p0, hp0, hx0⟩ | hin
        · rcases List.mem_map.mp hp0 with ⟨p1, hp1, hpeq⟩
          by_cases hc1 : p1.1 = c
          · rw [if_pos hc1] at hpeq
            rw [← hpeq] at hx0
            rcases List.mem_append.mp hx0 with hxa | hxd
            · exact Or.inl ⟨p1, hp1, hxa⟩
            · have hxd2 : x = d := by simpa using hxd
              exact Or.inr (hxd2 ▸ List.mem_cons_self d rest)
          · rw [if_neg hc1] at hpeq
            rw [← hpeq] at hx0
            exact Or.inl ⟨p1, hp1, hx0⟩
        · exact Or.inr (List.mem_cons_of_mem d hin)

theorem sortKeyOf_ok (d : Bag) (hd : descIsStr d) :
    ∃ k, sortKeyOf d = Except.ok k := by
  unfold sortKeyOf
  rcases getDescStr_ok d hd "" with ⟨s, hs⟩
  rw [hs]
  exact ⟨toLowerStr (String.mk (stripLeadDigitsWs s.data)), rfl⟩

theorem keyedDevs_ok (l : List Bag) (hall : ∀ x ∈ l, descIsStr x) :
    ∃ ps, keyedDevs l = Except.ok ps := by
  induction l with
  | nil => exact ⟨[], rfl⟩
  | cons d ds ih =>
    unfold keyedDevs
    rcases sortKeyOf_ok d (hall d (List.mem_cons_self d ds)) with ⟨k, hk⟩
    rw [hk]
    rcases ih (fun x hx => hall x (List.mem_cons_of_mem d hx)) with ⟨ps, hps⟩
    rw [hps]
    exact ⟨(k, d) :: ps, rfl⟩

theorem sortDevs_ok (l : List Bag) (hall : ∀ x ∈ l, descIsStr x) :
    ∃ l2, sortDevs l = Except.ok l2 := by
  unfold sortDevs
  rcases keyedDevs_ok l hall with ⟨ps, hps⟩
  rw [hps]
  exact ⟨(sortKeyed ps).map Prod.snd, rfl⟩

theorem sortPhase_ok (g : List (String × List Bag))
    (hall : ∀ p ∈ g, ∀ x ∈ p.2, descIsStr x) :
    ∃ g2, sortPhase g = Except.ok g2 := by
  induction g with
  | nil => exact ⟨[], rfl⟩
  | cons p rest ih =>
    obtain ⟨c, l⟩ := p
    unfold sortPhase
    rcases sortDevs_ok l (fun x hx => hall (c, l) (List.mem_cons_self _ _) x hx) with ⟨l2, hl2⟩
    rw [hl2]
    rcases ih (fun q hq x hx => hall q (List.mem_cons_of_mem _ hq) x hx) with ⟨rest2, hrest2⟩
    rw [hrest2]
    exact ⟨(c, l2) :: rest2, rfl⟩

/-- C9: classification is not total over arbitrary property bags — a
device whose description key holds None and whose type-5 path reads it
raises (AttributeError on lower) — while totality holds whenever every
present description value is a string. -/
theorem classifier_totality :
    group_devices
        [[("alarm_com_description", Value.none),
          ("alarm_com_equipment_type", Value.str "5")]]
      = Except.error "AttributeError: description is not a string" ∧
    (∀ devs : List Bag, (∀ d ∈ devs, descIsStr d) →
      ∃ g, group_devices devs = Except.ok g) := by
  refine ⟨rfl, fun devs hall => ?_⟩
  unfold group_devices
  rcases groupFold_ok devs initGroups hall with ⟨g1, hg1⟩
  rw [hg1]
  apply sortPhase_ok
  intro p hp x hx
  rcases groupFold_entry_sources devs initGroups g1 hg1 p hp x hx with ⟨p0, hp0, hx0⟩ | hin
  · rcases List.mem_map.mp hp0 with ⟨c0, _, hceq⟩
    rw [← hceq] at hx0
    exact absurd hx0 (List.not_mem_nil x)
  · exact hall x hin

/-- Device of the C9 witness: a door contact with no description key. -/
def c9Dev : Bag := [("alarm_com_equipment_type", Value.str "1")]

/-- C9 witness: the totality direction applied to a concrete device whose
description key is absent. -/
theorem classifier_totality_witness :
    ∃ g, group_devices [c9Dev] = Except.ok g :=
  classifier_totality.2 [c9Dev]
    (by
      intro d hd v hv
      have hd2 : d = c9Dev := by simpa using hd
      subst hd2
      exact absurd hv (by simp [c9Dev, pyLookup]))

/-- C5: the assembler is a pure function of the bundle contents, the
grouped devices, the certificate number, the recipient arguments and the
injected clock instant — bundles whose property bags agree pointwise (and
equal remaining inputs) yield identical field maps, field for field. -/
theorem assemble_deterministic (a b : HubData) (g : List (String × List Bag))
    (cn : String) (be rn : Option String) (ts : PDateTime)
    (hag : ∀ k, pyLookup a.agreement k = pyLookup b.agreement k)
    (hsys : ∀ k, pyLookup a.system k = pyLookup b.system k)
    (hsite : ∀ k, pyLookup a.site k = pyLookup b.site k)
    (hcust : ∀ k, pyLookup a.customer k = pyLookup b.customer k)
    (hdev : a.devices = b.devices) :
    assemble_certificate_fields a g cn be rn ts
      = assemble_certificate_fields b g cn be rn ts := by
  have hget1 : ∀ key dflt, pyGet a.agreement key dflt = pyGet b.agreement key dflt := by
    intro key dflt
    unfold pyGet
    rw [hag]
  have hget2 : ∀ key dflt, pyGet a.system key dflt = pyGet b.system key dflt := by
    intro key dflt
    unfold pyGet
    rw [hsys]
  have hget3 : ∀ key dflt, pyGet a.site key dflt = pyGet b.site key dflt := by
    intro key dflt
    unfold pyGet
    rw [hsite]
  have hget4 : ∀ key dflt, pyGet a.customer key dflt = pyGet b.customer key dflt := by
    intro key dflt
    unfold pyGet
    rw [hcust]
  have hcont : ∀ key, pyContains a.agreement key = pyContains b.agreement key := by
    intro key
    unfold pyContains
    rw [hag]
  have hbase : certBaseFields a cn be rn ts = certBaseFields b cn be rn ts := by
    unfold certBaseFields
    simp only [hget1, hget2, hget3, hget4]
  have hstat : statusEntries a.agreement = statusEntries b.agreement := by
    unfold statusEntries statusEntryFor
    simp only [hcont, hget1]
  unfold assemble_certificate_fields
  rw [hbase, hstat]

/-- Site bag shared by the C5 witness bundles. -/
def c5Site : Bag := [("name", Value.str "HQ"), ("zip", Value.str "v5k 0a1")]

/-- First C5 witness bundle: its customer bag carries a shadowed duplicate
key, so the two bundles differ syntactically but agree on every lookup. -/
def c5BundleA : HubData := HubData.mk
  [("agreement_partitions_total", Value.str "2")]
  []
  c5Site
  [("firstname", Value.str "Ann"), ("firstname", Value.str "Bob")]
  []

/-- Second C5 witness bundle. -/
def c5BundleB : HubData := HubData.mk
  [("agreement_partitions_total", Value.str "2")]
  []
  c5Site
  [("firstname", Value.str "Ann")]
  []

/-- C5 witness: the two lookup-equal bundles assemble to the same field
map. -/
theorem assemble_deterministic_witness :
    assemble_certificate_fields c5BundleA initGroups "X-001" Option.none Option.none dt0
      = assemble_certificate_fields c5BundleB initGroups "X-001" Option.none Option.none dt0 :=
  assemble_deterministic c5BundleA c5BundleB initGroups "X-001" Option.none Option.none dt0
    (fun _ => rfl) (fun _ => rfl) (fun _ => rfl)
    (fun k => by
      show pyLookup [("firstname", Value.str "Ann"), ("firstname", Value.str "Bob")] k
        = pyLookup [("firstname", Value.str "Ann")] k
      by_cases h : "firstname" = k <;> simp [pyLookup, h])
    rfl

/-! Key shape lemmas for the assembled field map (C10). -/

theorem append_head_ne (a b s t : String) (h : a.data.head? ≠ b.data.head?)
    (ha : a.data ≠ []) (hb : b.data ≠ []) : a ++ s ≠ b ++ t := by
  intro he
  apply h
  have h2 := congrArg String.data he
  rw [strData_append, strData_append] at h2
  cases hae : a.data with
  | nil => exact absurd hae ha
  | cons x xs =>
    cases hbe : b.data with
    | nil => exact absurd hbe hb
    | cons y ys =>
      rw [hae, hbe] at h2
      simp only [List.cons_append] at h2
      simp only [List.head?_cons]
      have hxy : x = y := by injection h2
      exact congrArg Option.some hxy

theorem deviceEntries_keys (g : List (String × List Bag)) (es : List (String × Value))
    (h : deviceEntries g = Except.ok es) (k : String) (hk : k ∈ es.map Prod.fst) :
    ∃ c, c ∈ g.map Prod.fst ∧ (k = "Zones_" ++ c ∨ k = "Count_" ++ c) := by
  induction g generalizing es with
  | nil =>
    simp only [deviceEntries] at h
    cases h
    exact absurd hk (by simp)
  | cons p rest ih =>
    obtain ⟨c, devs⟩ := p
    simp only [deviceEntries] at h
    cases hz : zoneList devs with
    | error e => rw [hz] at h; exact Except.noConfusion h
    | ok zl =>
      rw [hz] at h
      cases hr : deviceEntries rest with
      | error e => rw [hr] at h; exact Except.noConfusion h
      | ok r =>
        rw [hr] at h
        cases h
        simp only [List.map_cons, List.mem_cons] at hk
        rcases hk with hk | hk | hk
        · exact ⟨c, by simp, Or.inl hk⟩
        · exact ⟨c, by simp, Or.inr hk⟩
        · rcases ih r hr hk with ⟨c2, hc2, hor⟩
          exact ⟨c2, List.mem_cons_of_mem _ hc2, hor⟩

/-- The literal keys of the base dict of the assembler. -/
def certBaseKeys : List String :=
  ["provider_name", "provider_address", "provider_city", "provider_state",
   "provider_zip", "provider_phone", "CERTIFICATE_Number", "CERTIFICATE_TimeStamp",
   "HSID", "HSID_Site", "HSID_System", "SITE_Name", "SITE_Address1", "SITE_Address2",
   "SITE_City", "SITE_Province", "SITE_PostalCode", "SITE_Type",
   "AGREEMENT_Customer_Name", "AGREEMENT_Customer_Address1", "AGREEMENT_Customer_City",
   "AGREEMENT_Customer_Province", "AGREEMENT_Customer_PostalCode",
   "AGREEMENT_EffectiveDate", "AGREEMENT_Plan_ItemNumber", "AGREEMENT_Plan_Supervision",
   "AGREEMENT_Response_Guarantee", "Path_Primary", "Path_Secondary", "Path_Phrase",
   "AGREEMENT_Partitions_Included", "AGREEMENT_Partitions_Additional",
   "AGREEMENT_Partitions_Total", "Integrations_Gate_Fire",
   "CERTIFICATE_Recipient_Name", "CERTIFICATE_Recipient_Company"]

theorem certBaseFields_map_fst (hd : HubData) (cn : String)
    (be rn : Option String) (ts : PDateTime) :
    (certBaseFields hd cn be rn ts).map Prod.fst = certBaseKeys := rfl

theorem certBase_no_status_key (hd : HubData) (cn : String)
    (be rn : Option String) (ts : PDateTime) (s : String) :
    (pyLookup (certBaseFields hd cn be rn ts) ("AGREEMENT_Status_" ++ s)).isSome
      = false := by
  cases h : (pyLookup (certBaseFields hd cn be rn ts) ("AGREEMENT_Status_" ++ s)).isSome
  · rfl
  · exfalso
    have hmem := (pyLookup_isSome_iff_mem _ _).mp h
    rw [certBaseFields_map_fst] at hmem
    have hforbid : ∀ k ∈ certBaseKeys,
        listIsPrefix "AGREEMENT_Status_".data k.data = false := by decide
    have htrue : listIsPrefix "AGREEMENT_Status_".data
        ("AGREEMENT_Status_" ++ s).data = true := by
      rw [strData_append]
      exact listIsPrefix_append_self _ _
    have hfalse := hforbid _ hmem
    rw [htrue] at hfalse
    exact Bool.noConfusion hfalse

theorem statusEntries_key_mem (ag : Bag) (s : String) (hs : s ∈ statusNums) :
    ("AGREEMENT_Status_" ++ s) ∈ (statusEntries ag).map Prod.fst ↔
      ∃ p ∈ statusPrefixes, pyContains ag (p ++ s) = true := by
  unfold statusEntries
  constructor
  · intro h
    rcases List.mem_map.mp h with ⟨e, he, hek⟩
    rcases List.mem_filterMap.mp he with ⟨num, _, hentry⟩
    unfold statusEntryFor at hentry
    cases hf : statusPrefixes.find? (fun p => pyContains ag (p ++ num)) with
    | none => rw [hf] at hentry; exact Option.noConfusion hentry
    | some p =>
      rw [hf] at hentry
      have he2 : ("AGREEMENT_Status_" ++ num, pyGet ag (p ++ num) (Value.str "")) = e := by
        injection hentry
      have hkey : "AGREEMENT_Status_" ++ num = "AGREEMENT_Status_" ++ s := by
        rw [← he2] at hek
        exact hek
      have hnum_eq : num = s := strAppend_left_cancel _ _ _ hkey
      subst hnum_eq
      have hp2 := List.find?_some hf
      exact ⟨p, List.mem_of_find?_eq_some hf, hp2⟩
  · rintro ⟨p, hp, hcont⟩
    apply List.mem_map.mpr
    have hfind : (statusPrefixes.find? (fun q => pyContains ag (q ++ s))).isSome := by
      rw [List.find?_isSome]
      exact ⟨p, hp, hcont⟩
    cases hf : statusPrefixes.find? (fun q => pyContains ag (q ++ s)) with
    | none => rw [hf] at hfind; exact Bool.noConfusion hfind
    | some q =>
      refine ⟨("AGREEMENT_Status_" ++ s, pyGet ag (q ++ s) (Value.str "")), ?_, rfl⟩
      apply List.mem_filterMap.mpr
      refine ⟨s, hs, ?_⟩
      unfold statusEntryFor
      rw [hf]
      rfl

/-- C10: for every suffix in the probed list, the assembled field map holds
the key AGREEMENT_Status_{suffix} exactly when one of the nine prefixed
property names is present in the agreement bag; otherwise the key is
entirely absent — for any grouped table, since zone and count keys can
never collide with a status key. -/
theorem status_key_iff (hd : HubData) (g : List (String × List Bag))
    (cn : String) (be rn : Option String) (ts : PDateTime) (s : String)
    (fm : List (String × Value))
    (hs : s ∈ statusNums)
    (hok : assemble_certificate_fields hd g cn be rn ts = Except.ok fm) :
    (pyLookup fm ("AGREEMENT_Status_" ++ s)).isSome = true ↔
      ∃ p ∈ statusPrefixes, pyContains hd.agreement (p ++ s) = true := by
  unfold assemble_certificate_fields at hok
  cases hde : deviceEntries g with
  | error e => rw [hde] at hok; exact Except.noConfusion hok
  | ok devEs =>
    rw [hde] at hok
    dsimp only at hok
    have hfm : setAll (setAll (certBaseFields hd cn be rn ts)
        (statusEntries hd.agreement)) devEs = fm := by
      injection hok
    subst hfm
    have hdevkeys : ("AGREEMENT_Status_" ++ s) ∉ devEs.map Prod.fst := by
      intro hmem
      rcases deviceEntries_keys g devEs hde _ hmem with ⟨c, _, hor⟩
      rcases hor with hzc | hzc
      · exact append_head_ne "AGREEMENT_Status_" "Zones_" s c
          (by decide) (by decide) (by decide) hzc
      · exact append_head_ne "AGREEMENT_Status_" "Count_" s c
          (by decide) (by decide) (by decide) hzc
    rw [pyLookup_setAll_notin devEs _ _ hdevkeys, pyLookup_setAll_isSome,
      certBase_no_status_key]
    simp only [Bool.false_eq_true, or_false]
    exact statusEntries_key_mem hd.agreement s hs

/-- Bundle of the C10 witness: the agreement carries one fire status
property. -/
def c10Bundle : HubData := HubData.mk
  [("agreement_plan_fire_14389", Value.str "Included")]
  []
  []
  []
  []

/-- Field map assembled for the C10 witness bundle. -/
def c10Fm : List (String × Value) :=
  match assemble_certificate_fields c10Bundle initGroups "X-001"
      Option.none Option.none dt0 with
  | Except.ok fm => fm
  | Except.error _ => []

/-- C10 witness: the iff instantiated at suffix 14389 on the concrete
bundle. -/
theorem status_key_iff_witness :
    (pyLookup c10Fm ("AGREEMENT_Status_" ++ "14389")).isSome = true ↔
      ∃ p ∈ statusPrefixes, pyContains c10Bundle.agreement (p ++ "14389") = true :=
  status_key_iff c10Bundle initGroups "X-001" Option.none Option.none dt0 "14389"
    c10Fm (by decide) rfl

end CertEngine
